import Mathlib

/-!
Shallow embedding of the bracket-editing core of the NBACornerFrontend
repository (the BracketPage component in src/pages/RegisterPage.tsx):
the in-memory bracket graph, the optimistic local mutation engine
(handleSetWinner, handleSelectGames, handleUndo), the forward-propagation
resolver (updateNextMatchSlotInState), the play-in loser router
(updatePlayInGame3LoserInState), the save gate (allDecided, canSave) and
the reconciliation-on-failure behaviour (loadBracket after a failed PATCH).

Conventions of the embedding:
* a TypeScript value of type string | null is an Option String; the
  JavaScript truthiness test on such a value is the function truthy below
  (null and the empty string are falsy);
* a JS object used as a string-keyed record is an association list whose
  lookup returns the first binding;
* the MatchesByConfRound value {conf: {roundKey: Match[]}} is an
  association list of conferences, each an association list of round keys;
* numbers that the code compares with === 0 or > 0 are Int;
* the asynchronous PATCH call and the reload are modelled by passing the
  outcome of the PATCH and the server response of the reload as explicit
  arguments to the full handlers.
-/

namespace NBACorner

/-- The two participant sides of a match, the "A" | "B" union in the code. -/
inductive Side where
  | A : Side
  | B : Side
deriving DecidableEq, Repr

/-- JavaScript truthiness of a string | null value: null and "" are falsy. -/
def truthy : Option String → Bool
  | none => false
  | some s => s ≠ ""

/-- One match node, the Match and MatchWithTeamMeta record of the code
(the optional team metadata fields are kept inline, as the code reads and
writes them through a cast to MatchWithTeamMeta). -/
structure Match where
  id : String
  bracket_id : String
  conference : String
  round : Int
  slot : Int
  team_a : Option String
  team_b : Option String
  predicted_winner : Option String
  predicted_winner_games : Option Int
  next_match_id : Option String
  next_slot : Option String
  team_a_name : Option String
  team_b_name : Option String
  team_a_code : Option String
  team_b_code : Option String
  team_a_logo_url : Option String
  team_b_logo_url : Option String
  team_a_primary_color : Option String
  team_a_secondary_color : Option String
  team_b_primary_color : Option String
  team_b_secondary_color : Option String
deriving DecidableEq, Repr

/-- The rounds of one conference: a JS object keyed by round key. -/
abbrev RoundMap := List (String × List Match)

/-- The MatchesByConfRound shape: conferences keyed by name. -/
abbrev MatchesByConfRound := List (String × RoundMap)

/-- The pendingGames record: match id to locally chosen games count. -/
abbrev PendingGames := List (String × Int)

/-- Lookup in the pendingGames record (first binding wins, as in a JS object). -/
def lookupPending : PendingGames → String → Option Int
  | [], _ => none
  | e :: tl, k => if e.1 = k then some e.2 else lookupPending tl k

/-- The spread update of the pendingGames record with key k bound to v. -/
def setPending (p : PendingGames) (k : String) (v : Int) : PendingGames :=
  (p.filter (fun e => ¬ (e.1 = k))) ++ [(k, v)]

/-- The delete of key k from the pendingGames record. -/
def erasePending (p : PendingGames) (k : String) : PendingGames :=
  p.filter (fun e => ¬ (e.1 = k))

/-- Map a function over every match of the graph, keeping the
conference and round structure: the shape of every setMatches update. -/
def mapMatches (g : MatchesByConfRound) (f : Match → Match) : MatchesByConfRound :=
  g.map (fun cr => (cr.1, cr.2.map (fun rm => (rm.1, rm.2.map f))))

/-- updateMatchInState: apply the updater to every match whose id equals
matchId, leaving every other match untouched. -/
def updateMatchInState (g : MatchesByConfRound) (matchId : String)
    (updater : Match → Match) : MatchesByConfRound :=
  mapMatches g (fun m => if m.id = matchId then updater m else m)

/-- All matches of the graph in traversal order. -/
def matchesOf (g : MatchesByConfRound) : List Match :=
  (g.map (fun cr => (cr.2.map (fun rm => rm.2)).flatten)).flatten

/-- Read the participant reference of the given side. -/
def teamOf (m : Match) : Side → Option String
  | Side.A => m.team_a
  | Side.B => m.team_b

/-- The opposite side. -/
def otherSide : Side → Side
  | Side.A => Side.B
  | Side.B => Side.A

/-- The denormalized display name of the given side of a match. -/
def srcName (m : Match) : Side → Option String
  | Side.A => m.team_a_name
  | Side.B => m.team_b_name

/-- The short code of the given side of a match. -/
def srcCode (m : Match) : Side → Option String
  | Side.A => m.team_a_code
  | Side.B => m.team_b_code

/-- The logo URL of the given side of a match. -/
def srcLogo (m : Match) : Side → Option String
  | Side.A => m.team_a_logo_url
  | Side.B => m.team_b_logo_url

/-- The primary brand color of the given side of a match. -/
def srcPrimary (m : Match) : Side → Option String
  | Side.A => m.team_a_primary_color
  | Side.B => m.team_b_primary_color

/-- The secondary brand color of the given side of a match. -/
def srcSecondary (m : Match) : Side → Option String
  | Side.A => m.team_a_secondary_color
  | Side.B => m.team_b_secondary_color

/-- The updater that updateNextMatchSlotInState passes to
updateMatchInState: copy the winning team id and all of its denormalized
metadata from the source match into the destination slot (team-A fields
when destA, team-B fields otherwise) and clear the stale prediction of
the target match. -/
def nextSlotUpdater (src : Match) (winnerSide : Side) (winnerTeamId : String)
    (destA : Bool) (m : Match) : Match :=
  if destA then
    { m with
      team_a := some winnerTeamId,
      team_a_name := srcName src winnerSide,
      team_a_code := srcCode src winnerSide,
      team_a_logo_url := srcLogo src winnerSide,
      team_a_primary_color := srcPrimary src winnerSide,
      team_a_secondary_color := srcSecondary src winnerSide,
      predicted_winner := none,
      predicted_winner_games := none }
  else
    { m with
      team_b := some winnerTeamId,
      team_b_name := srcName src winnerSide,
      team_b_code := srcCode src winnerSide,
      team_b_logo_url := srcLogo src winnerSide,
      team_b_primary_color := srcPrimary src winnerSide,
      team_b_secondary_color := srcSecondary src winnerSide,
      predicted_winner := none,
      predicted_winner_games := none }

/-- updateNextMatchSlotInState: if the match carries a truthy forward link
(next_match_id and next_slot), write the winner and its metadata into the
linked slot of the target match; otherwise return the graph unchanged.
The destination is the team-A slot exactly when next_slot is the string
literal a, as in the code. -/
def updateNextMatchSlotInState (g : MatchesByConfRound) (mt : Match)
    (winnerSide : Side) (winnerTeamId : String) : MatchesByConfRound :=
  match mt.next_match_id, mt.next_slot with
  | some nm, some ns =>
      if nm = "" ∨ ns = "" then g
      else updateMatchInState g nm
        (nextSlotUpdater mt winnerSide winnerTeamId (ns = "a"))
  | _, _ => g

/-- Property lookup matches[conf] on the conference object. -/
def lookupConf (g : MatchesByConfRound) (conf : String) : Option RoundMap :=
  (g.find? (fun cr => cr.1 = conf)).map (fun cr => cr.2)

/-- Property lookup rounds[key] on the per-conference round object. -/
def lookupRound (r : RoundMap) (key : String) : Option (List Match) :=
  (r.find? (fun rm => rm.1 = key)).map (fun rm => rm.2)

/-- The lookup of the third play-in game performed by
updatePlayInGame3LoserInState: matches[conf][String(0)] followed by a
find of the first match with round 0 and slot 3. -/
def findGame3 (g : MatchesByConfRound) (conf : String) : Option Match :=
  match lookupConf g conf with
  | none => none
  | some rounds =>
    match lookupRound rounds "0" with
    | none => none
    | some ms => ms.find? (fun m => m.round = 0 && m.slot = 3)

/-- The updater that updatePlayInGame3LoserInState passes to
updateMatchInState: the loser goes into the team-B slot of game 3 with
all of its metadata, and the stale prediction of game 3 is cleared. -/
def loserUpdater (src : Match) (loserSide : Side) (loserTeamId : String)
    (m : Match) : Match :=
  { m with
    team_b := some loserTeamId,
    team_b_name := srcName src loserSide,
    team_b_code := srcCode src loserSide,
    team_b_logo_url := srcLogo src loserSide,
    team_b_primary_color := srcPrimary src loserSide,
    team_b_secondary_color := srcSecondary src loserSide,
    predicted_winner := none,
    predicted_winner_games := none }

/-- updatePlayInGame3LoserInState: only for a match at round 0, slot 2;
locate the round-0 slot-3 game of the same conference in the captured
graph (the matches closure of the component, i.e. the state at the start
of the handler) and route the loser into its team-B slot. The second
graph argument is the state the functional update is applied to. -/
def updatePlayInGame3LoserInState (captured g : MatchesByConfRound) (mt : Match)
    (loserSide : Side) (loserTeamId : String) : MatchesByConfRound :=
  if mt.round ≠ 0 ∨ mt.slot ≠ 2 then g
  else
    match findGame3 captured mt.conference with
    | none => g
    | some game3 => updateMatchInState g game3.id (loserUpdater mt loserSide loserTeamId)

/-- The series length chosen by handleSetWinner: 1 for the play-in round,
otherwise the already-recorded length when the recorded winner is the same
team, else the pending selection, else the default 4 (the ?? chain of the
code). -/
def winnerGames (p : PendingGames) (mt : Match) (winnerTeamId : String) : Int :=
  if mt.round = 0 then 1
  else
    let pending := lookupPending p mt.id
    let existing :=
      if mt.predicted_winner = some winnerTeamId then mt.predicted_winner_games
      else none
    (existing.orElse (fun _ => pending)).getD 4

/-- The updater handleSetWinner applies to the edited match itself. -/
def setWinnerUpdater (winnerTeamId : String) (games : Int) (m : Match) : Match :=
  { m with
    predicted_winner := some winnerTeamId,
    predicted_winner_games := some games }

/-- The in-memory component state the handlers mutate: the bracket graph
and the pendingGames record. -/
structure LocalState where
  graph : MatchesByConfRound
  pending : PendingGames
deriving DecidableEq, Repr

/-- The optimistic local part of handleSetWinner: guard on edit rights and
on both participants being truthy, then update the match itself, run the
forward-propagation resolver, run the play-in loser router (whose game-3
lookup reads the matches closure, i.e. the initial graph), and delete the
pending-games entry of the match. -/
def handleSetWinnerLocal (st : LocalState) (canEditFlag : Bool) (mt : Match)
    (team : Side) : LocalState :=
  if !canEditFlag then st
  else if !(truthy mt.team_a) || !(truthy mt.team_b) then st
  else
    let winnerTeamId := (teamOf mt team).getD ""
    let loserTeamId := (teamOf mt (otherSide team)).getD ""
    let games := winnerGames st.pending mt winnerTeamId
    let g1 := updateMatchInState st.graph mt.id (setWinnerUpdater winnerTeamId games)
    let g2 := updateNextMatchSlotInState g1 mt team winnerTeamId
    let g3 := updatePlayInGame3LoserInState st.graph g2 mt (otherSide team) loserTeamId
    { graph := g3, pending := erasePending st.pending mt.id }

/-- The body of the PATCH request sent to the backend for one match. -/
structure PatchRequest where
  action : String
  team : Option String
  games : Option Int
deriving DecidableEq, Repr

/-- Outcome of the awaited backend PATCH call. -/
inductive PatchOutcome where
  | ok : PatchOutcome
  | err (message : String) : PatchOutcome
deriving DecidableEq, Repr

/-- loadBracket with the silent option: on success the graph is replaced
wholesale by the matches of the server response; a failed reload is caught
and leaves the current graph in place. -/
def loadBracketSilent (cur : MatchesByConfRound) (server : Option MatchesByConfRound) :
    MatchesByConfRound :=
  match server with
  | some fresh => fresh
  | none => cur

/-- The message passed to setError in a catch block: the error message
unless it is falsy, else the fallback literal of the handler. -/
def surfaceError (msg fallback : String) : String :=
  if msg = "" then fallback else msg

/-- Result of a full handler run: the component state afterwards, the
error message surfaced by the catch block (none when no error was
surfaced), and the PATCH request that was sent (none when the handler
returned before sending one). -/
structure HandlerResult where
  state : LocalState
  surfaced : Option String
  request : Option PatchRequest
deriving DecidableEq, Repr

/-- handleSetWinner in full: optimistic local mutation, then the PATCH
with action set_winner; on success the local state is kept, on failure
the error is surfaced and the graph is reloaded from the backend
(loadBracket silent; the pendingGames record is not part of the reload). -/
def handleSetWinner (st : LocalState) (canEditFlag : Bool) (mt : Match) (team : Side)
    (patchResult : PatchOutcome) (server : Option MatchesByConfRound) : HandlerResult :=
  if !canEditFlag then ⟨st, none, none⟩
  else if !(truthy mt.team_a) || !(truthy mt.team_b) then ⟨st, none, none⟩
  else
    let winnerTeamId := (teamOf mt team).getD ""
    let games := winnerGames st.pending mt winnerTeamId
    let st1 := handleSetWinnerLocal st canEditFlag mt team
    let req : PatchRequest := ⟨"set_winner", some winnerTeamId, some games⟩
    match patchResult with
    | PatchOutcome.ok => ⟨st1, none, some req⟩
    | PatchOutcome.err msg =>
        ⟨⟨loadBracketSilent st1.graph server, st1.pending⟩,
          some (surfaceError msg "Failed to update match"), some req⟩

/-- The updater handleUndo applies to the match: clear both prediction
fields, touching nothing else. -/
def undoUpdater (m : Match) : Match :=
  { m with predicted_winner := none, predicted_winner_games := none }

/-- The optimistic local part of handleUndo: only an admin editing the
master bracket may undo; the prediction of the match is cleared and its
pending-games entry removed. -/
def handleUndoLocal (st : LocalState) (isAdmin isMaster : Bool) (mt : Match) :
    LocalState :=
  if !(isAdmin && isMaster) then st
  else
    { graph := updateMatchInState st.graph mt.id undoUpdater,
      pending := erasePending st.pending mt.id }

/-- handleUndo in full: local clear, PATCH with action undo, then a
silent reload (on success and on failure alike; on failure the error is
surfaced first). -/
def handleUndo (st : LocalState) (isAdmin isMaster : Bool) (mt : Match)
    (patchResult : PatchOutcome) (server : Option MatchesByConfRound) : HandlerResult :=
  if !(isAdmin && isMaster) then ⟨st, none, none⟩
  else
    let st1 := handleUndoLocal st isAdmin isMaster mt
    let req : PatchRequest := ⟨"undo", none, none⟩
    match patchResult with
    | PatchOutcome.ok =>
        ⟨⟨loadBracketSilent st1.graph server, st1.pending⟩, none, some req⟩
    | PatchOutcome.err msg =>
        ⟨⟨loadBracketSilent st1.graph server, st1.pending⟩,
          some (surfaceError msg "Failed to undo prediction"), some req⟩

/-- The local part of handleSelectGames together with the PATCH request it
decides to send: rejected for the play-in round; with no recorded winner
the value only goes into the pendingGames record and nothing is sent;
with a recorded winner the games field of the match is updated and a
set_winner PATCH for the recorded winner is sent. -/
def handleSelectGamesLocal (st : LocalState) (canEditFlag : Bool) (mt : Match)
    (gamesValue : Int) : LocalState × Option PatchRequest :=
  if !canEditFlag then (st, none)
  else if mt.round = 0 then (st, none)
  else if !(truthy mt.predicted_winner) then
    ({ graph := st.graph, pending := setPending st.pending mt.id gamesValue }, none)
  else
    ({ graph := updateMatchInState st.graph mt.id
          (fun m => { m with
            predicted_winner := m.predicted_winner,
            predicted_winner_games := some gamesValue }),
       pending := st.pending },
     some ⟨"set_winner", mt.predicted_winner, some gamesValue⟩)

/-- handleSelectGames in full: when a PATCH is sent and fails, the error
is surfaced and the graph reloaded from the backend. -/
def handleSelectGames (st : LocalState) (canEditFlag : Bool) (mt : Match)
    (gamesValue : Int) (patchResult : PatchOutcome)
    (server : Option MatchesByConfRound) : HandlerResult :=
  match handleSelectGamesLocal st canEditFlag mt gamesValue with
  | (st1, none) => ⟨st1, none, none⟩
  | (st1, some req) =>
    match patchResult with
    | PatchOutcome.ok => ⟨st1, none, some req⟩
    | PatchOutcome.err msg =>
        ⟨⟨loadBracketSilent st1.graph server, st1.pending⟩,
          some (surfaceError msg "Failed to update games"), some req⟩

/-- The per-match body of the allDecided loop: a match with a missing
participant is skipped; otherwise a truthy predicted winner is required,
and for a round above 0 a non-null games count as well. -/
def matchDecided (m : Match) : Bool :=
  if !(truthy m.team_a) || !(truthy m.team_b) then true
  else if !(truthy m.predicted_winner) then false
  else if m.round > 0 && m.predicted_winner_games.isNone then false
  else true

/-- The allDecided memo: false for an empty conference object, else every
match of every round of every conference must be decided. -/
def allDecided (g : MatchesByConfRound) : Bool :=
  if g.isEmpty then false
  else g.all (fun cr => cr.2.all (fun rm => rm.2.all matchDecided))

/-- The edit-permission flag: the owner may edit their own bracket, an
admin may edit the master bracket. -/
def canEdit (isOwner isAdmin isMaster : Bool) : Bool :=
  isOwner || (isAdmin && isMaster)

/-- Executable model of the JavaScript trim call on the bracket name. -/
def trimString (s : String) : String :=
  String.mk (((s.data.dropWhile Char.isWhitespace).reverse.dropWhile
    Char.isWhitespace).reverse)

/-- The canSave flag gating the save button. -/
def canSave (canEditFlag : Bool) (g : MatchesByConfRound) (bracketName : String)
    (saving savingLockedForUser : Bool) : Bool :=
  canEditFlag && allDecided g && !(trimString bracketName = "") &&
    !saving && !savingLockedForUser

/-- Whether handleSaveBracket reaches the point of submitting: it returns
early unless canSave holds, then re-checks the lock and the trimmed name. -/
def handleSaveBracketSubmits (canEditFlag : Bool) (g : MatchesByConfRound)
    (bracketName : String) (saving savingLockedForUser : Bool) : Bool :=
  canSave canEditFlag g bracketName saving savingLockedForUser &&
    !savingLockedForUser && !(trimString bracketName = "")

/-! ### Per-node decomposition of handleSetWinner

Each of the three graph updates performed by handleSetWinner is (or
contains) an updateMatchInState, i.e. a structure-preserving map over
every match of the graph. The stage functions below are the per-node
actions of the three updates, and hswStep is their composite. -/

/-- Per-node action of the update of the edited match itself. -/
def stage1Fn (mt : Match) (w : String) (gval : Int) (m : Match) : Match :=
  if m.id = mt.id then setWinnerUpdater w gval m else m

/-- Per-node action of the forward-propagation resolver. -/
def stage2Fn (mt : Match) (winnerSide : Side) (w : String) (m : Match) : Match :=
  match mt.next_match_id, mt.next_slot with
  | some nm, some ns =>
      if nm = "" ∨ ns = "" then m
      else if m.id = nm then nextSlotUpdater mt winnerSide w (ns = "a") m else m
  | _, _ => m

/-- The id of the game the play-in loser router will write to, when it
applies: the edited match must sit at round 0 slot 2 and the round-0
slot-3 game of its conference must exist in the captured graph. -/
def playTarget (captured : MatchesByConfRound) (mt : Match) : Option String :=
  if mt.round = 0 ∧ mt.slot = 2 then (findGame3 captured mt.conference).map Match.id
  else none

/-- Per-node action of the play-in loser router, given the resolved
target id (none when the router does not apply). -/
def stage3Fn (mt : Match) (loserSide : Side) (l : String) (g3 : Option String)
    (m : Match) : Match :=
  match g3 with
  | some g3id => if m.id = g3id then loserUpdater mt loserSide l m else m
  | none => m

/-- The composite per-node action of the local mutation of handleSetWinner. -/
def hswStep (mt : Match) (team : Side) (w l : String) (gval : Int)
    (g3 : Option String) (m : Match) : Match :=
  stage3Fn mt (otherSide team) l g3 (stage2Fn mt team w (stage1Fn mt w gval m))

/-- The condition under which the forward-propagation stage rewrites a
node: the edited match has a fully truthy forward link and the node id is
the link target. -/
def hitsNext (mt : Match) (m : Match) : Prop :=
  ∃ nm ns, mt.next_match_id = some nm ∧ mt.next_slot = some ns ∧
    ¬(nm = "" ∨ ns = "") ∧ m.id = nm

/-- The condition under which the play-in loser stage rewrites a node. -/
def hitsGame3 (g3 : Option String) (m : Match) : Prop :=
  ∃ g3id, g3 = some g3id ∧ m.id = g3id

/-- The composite per-node action of handleSetWinner with all parameters
resolved from the state and the edited match. -/
def hswF (st : LocalState) (mt : Match) (team : Side) : Match → Match :=
  hswStep mt team ((teamOf mt team).getD "")
    ((teamOf mt (otherSide team)).getD "")
    (winnerGames st.pending mt ((teamOf mt team).getD ""))
    (playTarget st.graph mt)

/-! ### Concrete fixtures for witnesses and counterexamples -/

/-- A match with no participants, no metadata and no prediction, used as
the base record of the concrete witness graphs. -/
def baseMatch : Match where
  id := ""
  bracket_id := "b1"
  conference := "east"
  round := 1
  slot := 1
  team_a := none
  team_b := none
  predicted_winner := none
  predicted_winner_games := none
  next_match_id := none
  next_slot := none
  team_a_name := none
  team_b_name := none
  team_a_code := none
  team_b_code := none
  team_a_logo_url := none
  team_b_logo_url := none
  team_a_primary_color := none
  team_a_secondary_color := none
  team_b_primary_color := none
  team_b_secondary_color := none

/-- Round-1 match feeding slot a of the round-2 match with id B. -/
def mA : Match :=
  { baseMatch with
    id := "A", round := 1, slot := 4,
    team_a := some "BOS", team_b := some "MIA",
    team_a_name := some "Celtics", team_b_name := some "Heat",
    team_a_code := some "BOS", team_b_code := some "MIA",
    team_a_logo_url := some "bos.png", team_b_logo_url := some "mia.png",
    team_a_primary_color := some "green", team_a_secondary_color := some "white",
    team_b_primary_color := some "red", team_b_secondary_color := some "black",
    next_match_id := some "B", next_slot := some "a" }

/-- The round-2 match fed by mA. -/
def mB : Match :=
  { baseMatch with
    id := "B", round := 2, slot := 1,
    team_a := some "NYK", team_b := some "CLE",
    predicted_winner := some "NYK", predicted_winner_games := some 6 }

/-- A two-match eastern-conference fixture graph. -/
def gAB : MatchesByConfRound := [("east", [("1", [mA]), ("2", [mB])])]

/-- The component state holding the gAB fixture and an empty cache. -/
def stAB : LocalState := ⟨gAB, []⟩

/-- A play-in game 2 (round 0 slot 2) with no forward link. -/
def p2 : Match :=
  { baseMatch with
    id := "g2", conference := "west", round := 0, slot := 2,
    team_a := some "LAL", team_b := some "GSW",
    team_a_name := some "Lakers", team_b_name := some "Warriors",
    team_a_code := some "LAL", team_b_code := some "GSW",
    team_a_logo_url := some "lal.png", team_b_logo_url := some "gsw.png",
    team_a_primary_color := some "purple", team_a_secondary_color := some "gold",
    team_b_primary_color := some "blue", team_b_secondary_color := some "yellow" }

/-- The play-in game 3 (round 0 slot 3) of the same conference. -/
def p3 : Match :=
  { baseMatch with
    id := "g3", conference := "west", round := 0, slot := 3,
    team_a := some "SAC",
    predicted_winner := some "SAC", predicted_winner_games := some 1 }

/-- A western play-in fixture graph with games 2 and 3. -/
def gPlay : MatchesByConfRound := [("west", [("0", [p2, p3])])]

/-- The component state holding the gPlay fixture and an empty cache. -/
def stPlay : LocalState := ⟨gPlay, []⟩

/-- The node mA after picking side A: BOS recorded with the default 4. -/
def mAPicked : Match :=
  { mA with predicted_winner := some "BOS", predicted_winner_games := some 4 }

/-- The node p2 after picking side A: LAL recorded with the play-in 1. -/
def p2Picked : Match :=
  { p2 with predicted_winner := some "LAL", predicted_winner_games := some 1 }

/-- The node p3 after the loser of p2 (side B, GSW) is routed into its
team-B slot with all metadata, clearing the stale SAC prediction. -/
def p3Routed : Match :=
  { p3 with
    team_b := some "GSW", team_b_name := some "Warriors",
    team_b_code := some "GSW", team_b_logo_url := some "gsw.png",
    team_b_primary_color := some "blue", team_b_secondary_color := some "yellow",
    predicted_winner := none, predicted_winner_games := none }

/-- The node mB after an undo: both prediction fields cleared. -/
def mBCleared : Match :=
  { mB with predicted_winner := none, predicted_winner_games := none }

/-- The node mB after selecting 7 games with its winner already recorded. -/
def mBGames7 : Match := { mB with predicted_winner_games := some 7 }

/-- A fully decided variant of the gAB fixture. -/
def gDone : MatchesByConfRound := [("east", [("1", [mAPicked]), ("2", [mB])])]

/-- The gAB fixture with a pending games entry of 7 for mA. -/
def stABPending : LocalState := ⟨gAB, [("A", 7)]⟩

/-- The node mB after the winner BOS of mA is propagated into its team-A
slot with all metadata, clearing the stale NYK prediction. -/
def mBFed : Match :=
  { mB with
    team_a := some "BOS", team_a_name := some "Celtics",
    team_a_code := some "BOS", team_a_logo_url := some "bos.png",
    team_a_primary_color := some "green", team_a_secondary_color := some "white",
    predicted_winner := none, predicted_winner_games := none }

lemma mapMatches_id (g : MatchesByConfRound) : mapMatches g (fun m => m) = g := by
  simp [mapMatches]

lemma mapMatches_congr (g : MatchesByConfRound) (f h : Match → Match)
    (hfh : ∀ m, f m = h m) : mapMatches g f = mapMatches g h := by
  have : f = h := funext hfh
  rw [this]

lemma mapMatches_comp (g : MatchesByConfRound) (f h : Match → Match) :
    mapMatches (mapMatches g f) h = mapMatches g (fun m => h (f m)) := by
  simp [mapMatches, List.map_map, Function.comp]

lemma matchesOf_mapMatches (g : MatchesByConfRound) (f : Match → Match) :
    matchesOf (mapMatches g f) = (matchesOf g).map f := by
  unfold matchesOf mapMatches
  rw [List.map_flatten, List.map_map, List.map_map]
  congr 1
  apply List.map_congr_left
  intro cr _
  simp only [Function.comp]
  rw [List.map_flatten, List.map_map, List.map_map]
  apply congrArg List.flatten
  apply List.map_congr_left
  intro rm _
  rfl

lemma mem_matchesOf_mapMatches {g : MatchesByConfRound} {f : Match → Match}
    {m : Match} :
    m ∈ matchesOf (mapMatches g f) ↔ ∃ n ∈ matchesOf g, f n = m := by
  rw [matchesOf_mapMatches]
  simp [List.mem_map]

lemma updateNextMatchSlot_eq_map (g : MatchesByConfRound) (mt : Match)
    (winnerSide : Side) (w : String) :
    updateNextMatchSlotInState g mt winnerSide w =
      mapMatches g (stage2Fn mt winnerSide w) := by
  unfold updateNextMatchSlotInState stage2Fn
  cases hnm : mt.next_match_id with
  | none =>
    cases hns : mt.next_slot <;> simp [mapMatches_id]
  | some nm =>
    cases hns : mt.next_slot with
    | none => simp [mapMatches_id]
    | some ns =>
      by_cases hempty : nm = "" ∨ ns = ""
      · simp [hempty, mapMatches_id]
      · simp [hempty, updateMatchInState]

lemma updatePlayIn_eq_map (captured g : MatchesByConfRound) (mt : Match)
    (loserSide : Side) (l : String) :
    updatePlayInGame3LoserInState captured g mt loserSide l =
      mapMatches g (stage3Fn mt loserSide l (playTarget captured mt)) := by
  unfold updatePlayInGame3LoserInState stage3Fn playTarget
  by_cases hrs : mt.round = 0 ∧ mt.slot = 2
  · simp only [hrs, if_true, hrs.1, hrs.2, ne_eq, not_true_eq_false, or_self, if_false]
    cases hg3 : findGame3 captured mt.conference with
    | none => simp [mapMatches_id]
    | some game3 => simp [updateMatchInState]
  · have hrs' : mt.round ≠ 0 ∨ mt.slot ≠ 2 := by tauto
    simp only [hrs, if_false, hrs', if_true, mapMatches_id]

lemma handleSetWinnerLocal_eq (st : LocalState) (mt : Match) (team : Side)
    (h1 : truthy mt.team_a = true) (h2 : truthy mt.team_b = true) :
    handleSetWinnerLocal st true mt team =
      ⟨mapMatches st.graph
        (hswStep mt team ((teamOf mt team).getD "")
          ((teamOf mt (otherSide team)).getD "")
          (winnerGames st.pending mt ((teamOf mt team).getD ""))
          (playTarget st.graph mt)),
       erasePending st.pending mt.id⟩ := by
  unfold handleSetWinnerLocal
  simp only [h1, h2, Bool.not_true, Bool.false_or, Bool.or_self, if_false,
    Bool.not_false]
  rw [show updateMatchInState st.graph mt.id
        (setWinnerUpdater ((teamOf mt team).getD "")
          (winnerGames st.pending mt ((teamOf mt team).getD ""))) =
      mapMatches st.graph (stage1Fn mt ((teamOf mt team).getD "")
        (winnerGames st.pending mt ((teamOf mt team).getD ""))) from rfl]
  rw [updateNextMatchSlot_eq_map, updatePlayIn_eq_map, mapMatches_comp,
    mapMatches_comp]
  rfl

/-! ### Field preservation of the three updaters -/

@[simp] lemma setWinnerUpdater_id (w : String) (gval : Int) (m : Match) :
    (setWinnerUpdater w gval m).id = m.id := rfl

@[simp] lemma setWinnerUpdater_round (w : String) (gval : Int) (m : Match) :
    (setWinnerUpdater w gval m).round = m.round := rfl

@[simp] lemma setWinnerUpdater_slot (w : String) (gval : Int) (m : Match) :
    (setWinnerUpdater w gval m).slot = m.slot := rfl

@[simp] lemma nextSlotUpdater_id (src : Match) (side : Side) (w : String)
    (destA : Bool) (m : Match) : (nextSlotUpdater src side w destA m).id = m.id := by
  unfold nextSlotUpdater
  split <;> rfl

@[simp] lemma nextSlotUpdater_round (src : Match) (side : Side) (w : String)
    (destA : Bool) (m : Match) :
    (nextSlotUpdater src side w destA m).round = m.round := by
  unfold nextSlotUpdater
  split <;> rfl

@[simp] lemma nextSlotUpdater_slot (src : Match) (side : Side) (w : String)
    (destA : Bool) (m : Match) :
    (nextSlotUpdater src side w destA m).slot = m.slot := by
  unfold nextSlotUpdater
  split <;> rfl

@[simp] lemma loserUpdater_id (src : Match) (side : Side) (l : String) (m : Match) :
    (loserUpdater src side l m).id = m.id := rfl

@[simp] lemma loserUpdater_round (src : Match) (side : Side) (l : String) (m : Match) :
    (loserUpdater src side l m).round = m.round := rfl

@[simp] lemma loserUpdater_slot (src : Match) (side : Side) (l : String) (m : Match) :
    (loserUpdater src side l m).slot = m.slot := rfl

@[simp] lemma stage1Fn_id (mt : Match) (w : String) (gval : Int) (m : Match) :
    (stage1Fn mt w gval m).id = m.id := by
  unfold stage1Fn
  split <;> simp

@[simp] lemma stage1Fn_round (mt : Match) (w : String) (gval : Int) (m : Match) :
    (stage1Fn mt w gval m).round = m.round := by
  unfold stage1Fn
  split <;> simp

@[simp] lemma stage1Fn_slot (mt : Match) (w : String) (gval : Int) (m : Match) :
    (stage1Fn mt w gval m).slot = m.slot := by
  unfold stage1Fn
  split <;> simp

@[simp] lemma stage2Fn_id (mt : Match) (side : Side) (w : String) (m : Match) :
    (stage2Fn mt side w m).id = m.id := by
  unfold stage2Fn
  split
  · split
    · rfl
    · split <;> simp
  · rfl

@[simp] lemma stage2Fn_round (mt : Match) (side : Side) (w : String) (m : Match) :
    (stage2Fn mt side w m).round = m.round := by
  unfold stage2Fn
  split
  · split
    · rfl
    · split <;> simp
  · rfl

@[simp] lemma stage2Fn_slot (mt : Match) (side : Side) (w : String) (m : Match) :
    (stage2Fn mt side w m).slot = m.slot := by
  unfold stage2Fn
  split
  · split
    · rfl
    · split <;> simp
  · rfl

@[simp] lemma stage3Fn_id (mt : Match) (side : Side) (l : String)
    (g3 : Option String) (m : Match) : (stage3Fn mt side l g3 m).id = m.id := by
  unfold stage3Fn
  split
  · split <;> simp
  · rfl

@[simp] lemma stage3Fn_round (mt : Match) (side : Side) (l : String)
    (g3 : Option String) (m : Match) : (stage3Fn mt side l g3 m).round = m.round := by
  unfold stage3Fn
  split
  · split <;> simp
  · rfl

@[simp] lemma stage3Fn_slot (mt : Match) (side : Side) (l : String)
    (g3 : Option String) (m : Match) : (stage3Fn mt side l g3 m).slot = m.slot := by
  unfold stage3Fn
  split
  · split <;> simp
  · rfl

@[simp] lemma hswStep_id (mt : Match) (team : Side) (w l : String) (gval : Int)
    (g3 : Option String) (m : Match) : (hswStep mt team w l gval g3 m).id = m.id := by
  unfold hswStep
  simp

@[simp] lemma hswStep_round (mt : Match) (team : Side) (w l : String) (gval : Int)
    (g3 : Option String) (m : Match) :
    (hswStep mt team w l gval g3 m).round = m.round := by
  unfold hswStep
  simp

@[simp] lemma hswStep_slot (mt : Match) (team : Side) (w l : String) (gval : Int)
    (g3 : Option String) (m : Match) :
    (hswStep mt team w l gval g3 m).slot = m.slot := by
  unfold hswStep
  simp

/-! ### Invariance of the game-3 lookup under structure-preserving maps -/

lemma lookupConf_mapMatches (g : MatchesByConfRound) (f : Match → Match)
    (conf : String) :
    lookupConf (mapMatches g f) conf =
      (lookupConf g conf).map (fun r => r.map (fun rm => (rm.1, rm.2.map f))) := by
  induction g with
  | nil => rfl
  | cons cr tl ih =>
    by_cases h : cr.1 = conf
    · simp [lookupConf, mapMatches, List.find?_cons, h]
    · simpa [lookupConf, mapMatches, List.find?_cons, h] using ih

lemma lookupRound_map (r : RoundMap) (f : Match → Match) (key : String) :
    lookupRound (r.map (fun rm => (rm.1, rm.2.map f))) key =
      (lookupRound r key).map (fun ms => ms.map f) := by
  induction r with
  | nil => rfl
  | cons rm tl ih =>
    by_cases h : rm.1 = key
    · simp [lookupRound, List.find?_cons, h]
    · simpa [lookupRound, List.find?_cons, h] using ih

lemma findGame3_mapMatches (g : MatchesByConfRound) (f : Match → Match)
    (conf : String)
    (hround : ∀ m, (f m).round = m.round) (hslot : ∀ m, (f m).slot = m.slot) :
    findGame3 (mapMatches g f) conf = (findGame3 g conf).map f := by
  unfold findGame3
  rw [lookupConf_mapMatches]
  cases hc : lookupConf g conf with
  | none => rfl
  | some rounds =>
    simp only [Option.map_some']
    rw [lookupRound_map]
    cases hr : lookupRound rounds "0" with
    | none => rfl
    | some ms =>
      simp only [Option.map_some']
      rw [List.find?_map]
      have hpred : ((fun m => m.round = 0 && m.slot = 3) ∘ f) =
          (fun m : Match => m.round = 0 && m.slot = 3) := by
        funext m
        simp [Function.comp, hround, hslot]
      rw [hpred]

lemma playTarget_mapMatches (g : MatchesByConfRound) (f : Match → Match)
    (mt : Match)
    (hid : ∀ m, (f m).id = m.id)
    (hround : ∀ m, (f m).round = m.round) (hslot : ∀ m, (f m).slot = m.slot) :
    playTarget (mapMatches g f) mt = playTarget g mt := by
  unfold playTarget
  split
  · rw [findGame3_mapMatches g f mt.conference hround hslot]
    cases findGame3 g mt.conference with
    | none => rfl
    | some g3 => simp [hid]
  · rfl

/-! ### Reduction of the stage functions at a node of known id -/

lemma stage1Fn_pos {mt : Match} {m : Match} (w : String) (gval : Int)
    (h : m.id = mt.id) : stage1Fn mt w gval m = setWinnerUpdater w gval m := by
  simp [stage1Fn, h]

lemma stage1Fn_neg {mt : Match} {m : Match} (w : String) (gval : Int)
    (h : ¬ m.id = mt.id) : stage1Fn mt w gval m = m := by
  simp [stage1Fn, h]

lemma stage2Fn_pos {mt m : Match} (side : Side) (w : String) {nm ns : String}
    (hnm : mt.next_match_id = some nm) (hns : mt.next_slot = some ns)
    (hne : ¬(nm = "" ∨ ns = "")) (hid : m.id = nm) :
    stage2Fn mt side w m = nextSlotUpdater mt side w (ns = "a") m := by
  simp [stage2Fn, hnm, hns, hne, hid]

lemma stage2Fn_skip {mt m : Match} (side : Side) (w : String)
    (h : ¬ hitsNext mt m) : stage2Fn mt side w m = m := by
  unfold stage2Fn
  rcases hnm : mt.next_match_id with _ | nm
  · rcases hns : mt.next_slot with _ | ns <;> rfl
  · rcases hns : mt.next_slot with _ | ns
    · rfl
    · by_cases hne : nm = "" ∨ ns = ""
      · simp [hne]
      · by_cases hid : m.id = nm
        · exact absurd ⟨nm, ns, hnm, hns, hne, hid⟩ h
        · simp [hne, hid]

lemma stage3Fn_pos {m : Match} (mt : Match) (side : Side) (l : String)
    {g3 : Option String} {g3id : String} (hg3 : g3 = some g3id)
    (hid : m.id = g3id) :
    stage3Fn mt side l g3 m = loserUpdater mt side l m := by
  simp [stage3Fn, hg3, hid]

lemma stage3Fn_skip {m : Match} (mt : Match) (side : Side) (l : String)
    {g3 : Option String} (h : ¬ hitsGame3 g3 m) :
    stage3Fn mt side l g3 m = m := by
  unfold stage3Fn
  rcases hg3 : g3 with _ | g3id
  · rfl
  · by_cases hid : m.id = g3id
    · exact absurd ⟨g3id, hg3, hid⟩ h
    · simp [hid]

lemma hitsNext_congr {mt m m' : Match} (h : m'.id = m.id) :
    hitsNext mt m' ↔ hitsNext mt m := by
  unfold hitsNext
  rw [h]

lemma hitsGame3_congr {g3 : Option String} {m m' : Match} (h : m'.id = m.id) :
    hitsGame3 g3 m' ↔ hitsGame3 g3 m := by
  unfold hitsGame3
  rw [h]

lemma not_hitsNext_of {mt m m' : Match} (h : m'.id = m.id)
    (hn : ¬ hitsNext mt m) : ¬ hitsNext mt m' :=
  fun hh => hn ((hitsNext_congr h).mp hh)

lemma not_hitsGame3_of {g3 : Option String} {m m' : Match} (h : m'.id = m.id)
    (hn : ¬ hitsGame3 g3 m) : ¬ hitsGame3 g3 m' :=
  fun hh => hn ((hitsGame3_congr h).mp hh)

/-- Applying the per-node action of handleSetWinner twice with the same
parameters gives the same node as applying it once: every write of the
action stores values that do not depend on the node being written. -/
lemma hswStep_idem (mt : Match) (team : Side) (w l : String) (gval : Int)
    (g3 : Option String) (m : Match) :
    hswStep mt team w l gval g3 (hswStep mt team w l gval g3 m) =
      hswStep mt team w l gval g3 m := by
  unfold hswStep
  by_cases h1 : m.id = mt.id
  · by_cases h2 : hitsNext mt m
    · obtain ⟨nm, ns, hnm, hns, hne, hid2⟩ := h2
      by_cases h3 : hitsGame3 g3 m
      · obtain ⟨g3id, hg3, hid3⟩ := h3
        rw [stage1Fn_pos w gval h1,
          stage2Fn_pos team w hnm hns hne (by simpa using hid2),
          stage3Fn_pos mt (otherSide team) l hg3 (by simpa using hid3),
          stage1Fn_pos w gval (by simpa using h1),
          stage2Fn_pos team w hnm hns hne (by simpa using hid2),
          stage3Fn_pos mt (otherSide team) l hg3 (by simpa using hid3)]
        by_cases hb : ns = "a" <;>
          simp [hb, setWinnerUpdater, nextSlotUpdater, loserUpdater]
      · rw [stage1Fn_pos w gval h1,
          stage2Fn_pos team w hnm hns hne (by simpa using hid2),
          stage3Fn_skip mt (otherSide team) l (not_hitsGame3_of (by simp) h3),
          stage1Fn_pos w gval (by simpa using h1),
          stage2Fn_pos team w hnm hns hne (by simpa using hid2),
          stage3Fn_skip mt (otherSide team) l (not_hitsGame3_of (by simp) h3)]
        by_cases hb : ns = "a" <;>
          simp [hb, setWinnerUpdater, nextSlotUpdater]
    · by_cases h3 : hitsGame3 g3 m
      · obtain ⟨g3id, hg3, hid3⟩ := h3
        rw [stage1Fn_pos w gval h1,
          stage2Fn_skip team w (not_hitsNext_of (by simp) h2),
          stage3Fn_pos mt (otherSide team) l hg3 (by simpa using hid3),
          stage1Fn_pos w gval (by simpa using h1),
          stage2Fn_skip team w (not_hitsNext_of (by simp) h2),
          stage3Fn_pos mt (otherSide team) l hg3 (by simpa using hid3)]
        simp [setWinnerUpdater, loserUpdater]
      · rw [stage1Fn_pos w gval h1,
          stage2Fn_skip team w (not_hitsNext_of (by simp) h2),
          stage3Fn_skip mt (otherSide team) l (not_hitsGame3_of (by simp) h3),
          stage1Fn_pos w gval (by simpa using h1),
          stage2Fn_skip team w (not_hitsNext_of (by simp) h2),
          stage3Fn_skip mt (otherSide team) l (not_hitsGame3_of (by simp) h3)]
        simp [setWinnerUpdater]
  · by_cases h2 : hitsNext mt m
    · obtain ⟨nm, ns, hnm, hns, hne, hid2⟩ := h2
      by_cases h3 : hitsGame3 g3 m
      · obtain ⟨g3id, hg3, hid3⟩ := h3
        rw [stage1Fn_neg w gval h1,
          stage2Fn_pos team w hnm hns hne hid2,
          stage3Fn_pos mt (otherSide team) l hg3 (by simpa using hid3),
          stage1Fn_neg w gval (by simpa using h1),
          stage2Fn_pos team w hnm hns hne (by simpa using hid2),
          stage3Fn_pos mt (otherSide team) l hg3 (by simpa using hid3)]
        by_cases hb : ns = "a" <;>
          simp [hb, nextSlotUpdater, loserUpdater]
      · rw [stage1Fn_neg w gval h1,
          stage2Fn_pos team w hnm hns hne hid2,
          stage3Fn_skip mt (otherSide team) l (not_hitsGame3_of (by simp) h3),
          stage1Fn_neg w gval (by simpa using h1),
          stage2Fn_pos team w hnm hns hne (by simpa using hid2),
          stage3Fn_skip mt (otherSide team) l (not_hitsGame3_of (by simp) h3)]
        by_cases hb : ns = "a" <;>
          simp [hb, nextSlotUpdater]
    · by_cases h3 : hitsGame3 g3 m
      · obtain ⟨g3id, hg3, hid3⟩ := h3
        rw [stage1Fn_neg w gval h1,
          stage2Fn_skip team w h2,
          stage3Fn_pos mt (otherSide team) l hg3 hid3,
          stage1Fn_neg w gval (by simpa using h1),
          stage2Fn_skip team w (not_hitsNext_of (by simp) h2),
          stage3Fn_pos mt (otherSide team) l hg3 (by simpa using hid3)]
        simp [loserUpdater]
      · rw [stage1Fn_neg w gval h1,
          stage2Fn_skip team w h2,
          stage3Fn_skip mt (otherSide team) l h3,
          stage1Fn_neg w gval h1,
          stage2Fn_skip team w h2,
          stage3Fn_skip mt (otherSide team) l h3]

/-! ### Support lemmas on the pending cache, membership and no-op updates -/

lemma erasePending_idem (p : PendingGames) (k : String) :
    erasePending (erasePending p k) k = erasePending p k := by
  unfold erasePending
  rw [List.filter_filter]
  apply List.filter_congr
  intro a _
  simp

lemma lookupPending_erase_self (p : PendingGames) (k : String) :
    lookupPending (erasePending p k) k = none := by
  induction p with
  | nil => rfl
  | cons e tl ih =>
    by_cases he : e.1 = k
    · simpa [erasePending, List.filter_cons, he] using ih
    · simpa [erasePending, List.filter_cons, he, lookupPending] using ih

lemma lookupPending_erase_other (p : PendingGames) (k k' : String) (h : k' ≠ k) :
    lookupPending (erasePending p k) k' = lookupPending p k' := by
  induction p with
  | nil => rfl
  | cons e tl ih =>
    have hkk : ¬ k = k' := fun hk => h hk.symm
    by_cases he : e.1 = k
    · have he' : ¬ e.1 = k' := fun hk => h (hk.symm.trans he)
      simpa [erasePending, List.filter_cons, he, lookupPending, he', hkk] using ih
    · by_cases he' : e.1 = k'
      · simp [erasePending, List.filter_cons, he, lookupPending, he', hkk, h]
      · simpa [erasePending, List.filter_cons, he, lookupPending, he', hkk] using ih

lemma lookupPending_set_self (p : PendingGames) (k : String) (v : Int) :
    lookupPending (setPending p k v) k = some v := by
  induction p with
  | nil => simp [setPending, lookupPending]
  | cons e tl ih =>
    by_cases he : e.1 = k
    · simpa [setPending, List.filter_cons, he] using ih
    · simpa [setPending, List.filter_cons, he, lookupPending] using ih

lemma mem_matchesOf_of {g : MatchesByConfRound} {cr : String × RoundMap}
    {rm : String × List Match} {m : Match}
    (hcr : cr ∈ g) (hrm : rm ∈ cr.2) (hm : m ∈ rm.2) : m ∈ matchesOf g := by
  unfold matchesOf
  rw [List.mem_flatten]
  refine ⟨(cr.2.map (fun rm => rm.2)).flatten, List.mem_map_of_mem _ hcr, ?_⟩
  rw [List.mem_flatten]
  exact ⟨rm.2, List.mem_map_of_mem _ hrm, hm⟩

lemma mapMatches_congr_mem (g : MatchesByConfRound) (f h : Match → Match)
    (hfh : ∀ m ∈ matchesOf g, f m = h m) : mapMatches g f = mapMatches g h := by
  unfold mapMatches
  apply List.map_congr_left
  intro cr hcr
  apply congrArg (Prod.mk cr.1)
  apply List.map_congr_left
  intro rm hrm
  apply congrArg (Prod.mk rm.1)
  apply List.map_congr_left
  intro m hm
  exact hfh m (mem_matchesOf_of hcr hrm hm)

lemma updateMatchInState_absent (g : MatchesByConfRound) (k : String)
    (f : Match → Match) (habs : ∀ n ∈ matchesOf g, ¬ n.id = k) :
    updateMatchInState g k f = g := by
  unfold updateMatchInState
  rw [mapMatches_congr_mem g _ (fun m => m) (fun m hm => by simp [habs m hm]),
    mapMatches_id]

/-! ### Written field values of the updaters -/

@[simp] lemma setWinnerUpdater_pw (w : String) (gval : Int) (m : Match) :
    (setWinnerUpdater w gval m).predicted_winner = some w := rfl

@[simp] lemma setWinnerUpdater_pwg (w : String) (gval : Int) (m : Match) :
    (setWinnerUpdater w gval m).predicted_winner_games = some gval := rfl

@[simp] lemma setWinnerUpdater_team_a (w : String) (gval : Int) (m : Match) :
    (setWinnerUpdater w gval m).team_a = m.team_a := rfl

@[simp] lemma setWinnerUpdater_team_b (w : String) (gval : Int) (m : Match) :
    (setWinnerUpdater w gval m).team_b = m.team_b := rfl

@[simp] lemma loserUpdater_team_b (src : Match) (side : Side) (l : String)
    (m : Match) : (loserUpdater src side l m).team_b = some l := rfl

@[simp] lemma loserUpdater_team_b_name (src : Match) (side : Side) (l : String)
    (m : Match) : (loserUpdater src side l m).team_b_name = srcName src side := rfl

@[simp] lemma loserUpdater_team_b_code (src : Match) (side : Side) (l : String)
    (m : Match) : (loserUpdater src side l m).team_b_code = srcCode src side := rfl

@[simp] lemma loserUpdater_team_b_logo (src : Match) (side : Side) (l : String)
    (m : Match) :
    (loserUpdater src side l m).team_b_logo_url = srcLogo src side := rfl

@[simp] lemma loserUpdater_team_b_primary (src : Match) (side : Side) (l : String)
    (m : Match) :
    (loserUpdater src side l m).team_b_primary_color = srcPrimary src side := rfl

@[simp] lemma loserUpdater_team_b_secondary (src : Match) (side : Side)
    (l : String) (m : Match) :
    (loserUpdater src side l m).team_b_secondary_color = srcSecondary src side := rfl

@[simp] lemma loserUpdater_pw (src : Match) (side : Side) (l : String) (m : Match) :
    (loserUpdater src side l m).predicted_winner = none := rfl

@[simp] lemma loserUpdater_pwg (src : Match) (side : Side) (l : String) (m : Match) :
    (loserUpdater src side l m).predicted_winner_games = none := rfl

lemma nextSlotUpdater_destA (src : Match) (side : Side) (w : String) (m : Match) :
    nextSlotUpdater src side w true m =
      { m with
        team_a := some w,
        team_a_name := srcName src side,
        team_a_code := srcCode src side,
        team_a_logo_url := srcLogo src side,
        team_a_primary_color := srcPrimary src side,
        team_a_secondary_color := srcSecondary src side,
        predicted_winner := none,
        predicted_winner_games := none } := rfl

lemma nextSlotUpdater_destB (src : Match) (side : Side) (w : String) (m : Match) :
    nextSlotUpdater src side w false m =
      { m with
        team_b := some w,
        team_b_name := srcName src side,
        team_b_code := srcCode src side,
        team_b_logo_url := srcLogo src side,
        team_b_primary_color := srcPrimary src side,
        team_b_secondary_color := srcSecondary src side,
        predicted_winner := none,
        predicted_winner_games := none } := rfl

/-- The series length the second identical pick computes: once the match
records the same winner with the games value of the first pick, that
recorded value takes precedence. -/
lemma winnerGames_after (p p' : PendingGames) (mt : Match) (w : String) :
    winnerGames p'
      { mt with
        predicted_winner := some w,
        predicted_winner_games := some (winnerGames p mt w) } w =
      winnerGames p mt w := by
  unfold winnerGames
  by_cases hr : mt.round = 0 <;> simp [hr, Option.orElse]

lemma truthy_eq_some_getD {o : Option String} (h : truthy o = true) :
    o = some (o.getD "") := by
  cases o with
  | none => simp [truthy] at h
  | some s => rfl

/-- Every match of the graph produced by the local mutation of
handleSetWinner is the image of a match of the initial graph under the
composite per-node action, and the node ids are unchanged. -/
lemma handleSetWinnerLocal_nodes (st : LocalState) (mt : Match) (team : Side)
    (h1 : truthy mt.team_a = true) (h2 : truthy mt.team_b = true)
    {m' : Match}
    (hm' : m' ∈ matchesOf (handleSetWinnerLocal st true mt team).graph) :
    ∃ n ∈ matchesOf st.graph,
      hswStep mt team ((teamOf mt team).getD "")
        ((teamOf mt (otherSide team)).getD "")
        (winnerGames st.pending mt ((teamOf mt team).getD ""))
        (playTarget st.graph mt) n = m' := by
  rw [handleSetWinnerLocal_eq st mt team h1 h2] at hm'
  exact mem_matchesOf_mapMatches.mp hm'

/-- C3: for a match with both participants assigned (and whose forward
link and play-in target do not point back at the match itself), the local
mutation of setWinner leaves the predicted winner of that match equal to
one of its two participant references, with both participant references
unchanged; and when either participant of a match is missing, the local
mutation of setWinner leaves the whole state (graph and pending cache)
unchanged. -/
theorem setWinner_prediction_among_participants (st : LocalState) (mt : Match)
    (team : Side)
    (h1 : truthy mt.team_a = true) (h2 : truthy mt.team_b = true)
    (hself2 : ¬ hitsNext mt mt)
    (hself3 : ¬ hitsGame3 (playTarget st.graph mt) mt)
    (huniq : ∀ n ∈ matchesOf st.graph, n.id = mt.id → n = mt) :
    (∀ m' ∈ matchesOf (handleSetWinnerLocal st true mt team).graph,
        m'.id = mt.id →
        (m'.predicted_winner = m'.team_a ∨ m'.predicted_winner = m'.team_b) ∧
          m'.team_a = mt.team_a ∧ m'.team_b = mt.team_b) ∧
    (∀ (st' : LocalState) (ce : Bool) (mt' : Match) (team' : Side),
        mt'.team_a = none ∨ mt'.team_b = none →
        handleSetWinnerLocal st' ce mt' team' = st') := by
  constructor
  · intro m' hm' hid
    obtain ⟨n, hn, hstep⟩ := handleSetWinnerLocal_nodes st mt team h1 h2 hm'
    have hnid : n.id = mt.id := by
      have := congrArg Match.id hstep
      simpa [hid] using this
    have hn_eq : n = mt := huniq n hn hnid
    subst hn_eq
    rw [show hswStep n team ((teamOf n team).getD "")
        ((teamOf n (otherSide team)).getD "")
        (winnerGames st.pending n ((teamOf n team).getD ""))
        (playTarget st.graph n) n =
        setWinnerUpdater ((teamOf n team).getD "")
          (winnerGames st.pending n ((teamOf n team).getD "")) n by
      unfold hswStep
      rw [stage1Fn_pos _ _ rfl,
        stage2Fn_skip team _ (not_hitsNext_of (by simp) hself2),
        stage3Fn_skip n (otherSide team) _ (not_hitsGame3_of (by simp) hself3)]]
      at hstep
    subst hstep
    refine ⟨?_, rfl, rfl⟩
    cases team with
    | A =>
      left
      simp only [setWinnerUpdater_pw, setWinnerUpdater_team_a]
      exact (truthy_eq_some_getD h1).symm
    | B =>
      right
      simp only [setWinnerUpdater_pw, setWinnerUpdater_team_b]
      exact (truthy_eq_some_getD h2).symm
  · intro st' ce mt' team' hmiss
    cases ce with
    | false => rfl
    | true =>
      rcases hmiss with hmiss | hmiss <;>
        simp [handleSetWinnerLocal, truthy, hmiss]

/-- Witness for C3 at the concrete fixture: picking side A on mA makes
BOS the predicted winner of the node with id A, and setWinner on the
play-in game 3 node (which is missing its second participant) is a no-op. -/
theorem setWinner_prediction_among_participants_witness :
    ((mAPicked.predicted_winner = mAPicked.team_a ∨
        mAPicked.predicted_winner = mAPicked.team_b) ∧
      mAPicked.team_a = mA.team_a ∧ mAPicked.team_b = mA.team_b) ∧
    handleSetWinnerLocal stPlay true p3 Side.A = stPlay := by
  have hmain := setWinner_prediction_among_participants stAB mA Side.A
    (by decide) (by decide)
    (by
      rintro ⟨nm, ns, hnm, hns, hne, hid⟩
      simp [mA, baseMatch] at hnm hid
      exact absurd (hid.trans hnm.symm) (by decide))
    (by
      rintro ⟨g3id, hg3, hid⟩
      simp [playTarget, mA, baseMatch] at hg3)
    (by decide)
  exact ⟨hmain.1 mAPicked (by decide) (by decide), hmain.2 stPlay true p3 Side.A
    (Or.inr (by decide))⟩

/-- C5: the series length setWinner records for a round-0 match is 1, no
matter what the pending cache holds; the updated node of the graph then
carries predicted_winner_games equal to 1; and setGames on a round-0 match
is rejected with the whole state unchanged and no request sent, for any
caller rights. -/
theorem playin_games_always_one (st : LocalState) (mt : Match) (team : Side)
    (gv : Int)
    (hr : mt.round = 0)
    (h1 : truthy mt.team_a = true) (h2 : truthy mt.team_b = true)
    (hself2 : ¬ hitsNext mt mt)
    (hself3 : ¬ hitsGame3 (playTarget st.graph mt) mt)
    (huniq : ∀ n ∈ matchesOf st.graph, n.id = mt.id → n = mt) :
    winnerGames st.pending mt ((teamOf mt team).getD "") = 1 ∧
    (∀ m' ∈ matchesOf (handleSetWinnerLocal st true mt team).graph,
        m'.id = mt.id → m'.predicted_winner_games = some 1) ∧
    (∀ ce : Bool, handleSelectGamesLocal st ce mt gv = (st, none)) := by
  have hgames : winnerGames st.pending mt ((teamOf mt team).getD "") = 1 := by
    unfold winnerGames
    simp [hr]
  refine ⟨hgames, ?_, ?_⟩
  · intro m' hm' hid
    obtain ⟨n, hn, hstep⟩ := handleSetWinnerLocal_nodes st mt team h1 h2 hm'
    have hnid : n.id = mt.id := by
      have := congrArg Match.id hstep
      simpa [hid] using this
    have hn_eq : n = mt := huniq n hn hnid
    subst hn_eq
    rw [show hswStep n team ((teamOf n team).getD "")
        ((teamOf n (otherSide team)).getD "")
        (winnerGames st.pending n ((teamOf n team).getD ""))
        (playTarget st.graph n) n =
        setWinnerUpdater ((teamOf n team).getD "")
          (winnerGames st.pending n ((teamOf n team).getD "")) n by
      unfold hswStep
      rw [stage1Fn_pos _ _ rfl,
        stage2Fn_skip team _ (not_hitsNext_of (by simp) hself2),
        stage3Fn_skip n (otherSide team) _ (not_hitsGame3_of (by simp) hself3)]]
      at hstep
    subst hstep
    rw [setWinnerUpdater_pwg, hgames]
  · intro ce
    cases ce with
    | false => rfl
    | true =>
      unfold handleSelectGamesLocal
      simp [hr]

/-- Witness for C5 at the play-in fixture: picking LAL on p2 records one
game, the updated node indeed holds games 1, and selecting 5 games on p2
is rejected without touching the state. -/
theorem playin_games_always_one_witness :
    winnerGames stPlay.pending p2 ((teamOf p2 Side.A).getD "") = 1 ∧
    p2Picked.predicted_winner_games = some 1 ∧
    handleSelectGamesLocal stPlay true p2 5 = (stPlay, none) := by
  have hmain := playin_games_always_one stPlay p2 Side.A 5 (by decide)
    (by decide) (by decide)
    (by
      rintro ⟨nm, ns, hnm, hns, hne, hid⟩
      simp [p2, baseMatch] at hnm)
    (by
      rintro ⟨g3id, hg3, hid⟩
      rw [show playTarget stPlay.graph p2 = some "g3" from by decide] at hg3
      have hg : g3id = "g3" := by simpa using hg3.symm
      subst hg
      exact absurd hid (by decide))
    (by decide)
  exact ⟨hmain.1, hmain.2.1 p2Picked (by decide) (by decide), hmain.2.2 true⟩

/-- C6: for a round above 0, the series length recorded by setWinner is
chosen by precedence (recorded length for the same winner, else pending
cache entry, else 4) and is written onto the edited node; setGames with no
recorded winner stores the value only in the pending cache and sends
nothing; and setWinner deletes the pending cache entry of the match. -/
theorem series_length_precedence (st : LocalState) (mt : Match) (team : Side)
    (gv : Int)
    (h1 : truthy mt.team_a = true) (h2 : truthy mt.team_b = true)
    (hr : 0 < mt.round)
    (hself2 : ¬ hitsNext mt mt)
    (hself3 : ¬ hitsGame3 (playTarget st.graph mt) mt)
    (huniq : ∀ n ∈ matchesOf st.graph, n.id = mt.id → n = mt) :
    (∀ k, mt.predicted_winner = some ((teamOf mt team).getD "") →
        mt.predicted_winner_games = some k →
        winnerGames st.pending mt ((teamOf mt team).getD "") = k) ∧
    (∀ q, (mt.predicted_winner ≠ some ((teamOf mt team).getD "") ∨
          mt.predicted_winner_games = none) →
        lookupPending st.pending mt.id = some q →
        winnerGames st.pending mt ((teamOf mt team).getD "") = q) ∧
    ((mt.predicted_winner ≠ some ((teamOf mt team).getD "") ∨
          mt.predicted_winner_games = none) →
        lookupPending st.pending mt.id = none →
        winnerGames st.pending mt ((teamOf mt team).getD "") = 4) ∧
    (∀ m' ∈ matchesOf (handleSetWinnerLocal st true mt team).graph,
        m'.id = mt.id →
        m'.predicted_winner_games =
          some (winnerGames st.pending mt ((teamOf mt team).getD ""))) ∧
    (truthy mt.predicted_winner = false →
      (handleSelectGamesLocal st true mt gv).1.graph = st.graph ∧
      (handleSelectGamesLocal st true mt gv).2 = none ∧
      lookupPending (handleSelectGamesLocal st true mt gv).1.pending mt.id =
        some gv) ∧
    ((handleSetWinnerLocal st true mt team).pending =
        erasePending st.pending mt.id ∧
      lookupPending (handleSetWinnerLocal st true mt team).pending mt.id =
        none) := by
  have hrne : ¬ mt.round = 0 := by
    intro h
    rw [h] at hr
    exact lt_irrefl 0 hr
  refine ⟨?_, ?_, ?_, ?_, ?_, ?_⟩
  · intro k hpw hpwg
    unfold winnerGames
    simp [hrne, hpw, hpwg, Option.orElse]
  · intro q hnot hpend
    unfold winnerGames
    rcases hnot with hnot | hnot
    · simp [hrne, hnot, hpend, Option.orElse]
    · by_cases hpw : mt.predicted_winner = some ((teamOf mt team).getD "") <;>
        simp [hrne, hpw, hnot, hpend, Option.orElse]
  · intro hnot hpend
    unfold winnerGames
    rcases hnot with hnot | hnot
    · simp [hrne, hnot, hpend, Option.orElse]
    · by_cases hpw : mt.predicted_winner = some ((teamOf mt team).getD "") <;>
        simp [hrne, hpw, hnot, hpend, Option.orElse]
  · intro m' hm' hid
    obtain ⟨n, hn, hstep⟩ := handleSetWinnerLocal_nodes st mt team h1 h2 hm'
    have hnid : n.id = mt.id := by
      have := congrArg Match.id hstep
      simpa [hid] using this
    have hn_eq : n = mt := huniq n hn hnid
    subst hn_eq
    rw [show hswStep n team ((teamOf n team).getD "")
        ((teamOf n (otherSide team)).getD "")
        (winnerGames st.pending n ((teamOf n team).getD ""))
        (playTarget st.graph n) n =
        setWinnerUpdater ((teamOf n team).getD "")
          (winnerGames st.pending n ((teamOf n team).getD "")) n by
      unfold hswStep
      rw [stage1Fn_pos _ _ rfl,
        stage2Fn_skip team _ (not_hitsNext_of (by simp) hself2),
        stage3Fn_skip n (otherSide team) _ (not_hitsGame3_of (by simp) hself3)]]
      at hstep
    subst hstep
    rw [setWinnerUpdater_pwg]
  · intro hnw
    have hred : handleSelectGamesLocal st true mt gv =
        ({ graph := st.graph, pending := setPending st.pending mt.id gv }, none) := by
      unfold handleSelectGamesLocal
      simp [hrne, hnw]
    rw [hred]
    exact ⟨rfl, rfl, lookupPending_set_self st.pending mt.id gv⟩
  · rw [handleSetWinnerLocal_eq st mt team h1 h2]
    exact ⟨rfl, lookupPending_erase_self st.pending mt.id⟩

/-- Witness for C6: on the fixtures, mB (winner NYK recorded with 6)
yields 6 again, mA with a pending 7 yields 7, plain mA yields the default
4, selecting 6 games on mA (no winner) only fills the pending cache, and
picking a winner deletes the pending entry. -/
theorem series_length_precedence_witness :
    winnerGames stAB.pending mB ((teamOf mB Side.A).getD "") = 6 ∧
    winnerGames stABPending.pending mA ((teamOf mA Side.A).getD "") = 7 ∧
    winnerGames stAB.pending mA ((teamOf mA Side.A).getD "") = 4 ∧
    (handleSelectGamesLocal stAB true mA 6).1.graph = stAB.graph ∧
    (handleSelectGamesLocal stAB true mA 6).2 = none ∧
    lookupPending (handleSelectGamesLocal stAB true mA 6).1.pending mA.id =
      some 6 ∧
    lookupPending (handleSetWinnerLocal stABPending true mA Side.A).pending
      mA.id = none := by
  have hselfA2 : ¬ hitsNext mA mA := by
    rintro ⟨nm, ns, hnm, hns, hne, hid⟩
    simp [mA, baseMatch] at hnm hid
    exact absurd (hid.trans hnm.symm) (by decide)
  have hselfA3g : ∀ g : MatchesByConfRound, ¬ hitsGame3 (playTarget g mA) mA := by
    intro g
    rintro ⟨g3id, hg3, hid⟩
    rw [show playTarget g mA = none by simp [playTarget, mA, baseMatch]] at hg3
    exact Option.noConfusion hg3
  have hB := series_length_precedence stAB mB Side.A 6 (by decide) (by decide)
    (by decide)
    (by
      rintro ⟨nm, ns, hnm, hns, hne, hid⟩
      simp [mB, baseMatch] at hnm)
    (by
      rintro ⟨g3id, hg3, hid⟩
      rw [show playTarget stAB.graph mB = none by
        simp [playTarget, mB, baseMatch]] at hg3
      exact Option.noConfusion hg3)
    (by decide)
  have hA := series_length_precedence stAB mA Side.A 6 (by decide) (by decide)
    (by decide) hselfA2 (hselfA3g stAB.graph) (by decide)
  have hAp := series_length_precedence stABPending mA Side.A 6 (by decide)
    (by decide) (by decide) hselfA2 (hselfA3g stABPending.graph) (by decide)
  refine ⟨hB.1 6 (by decide) (by decide), ?_, ?_, ?_, ?_, ?_, ?_⟩
  · exact hAp.2.1 7 (Or.inl (by decide)) (by decide)
  · exact hA.2.2.1 (Or.inl (by decide)) (by decide)
  · exact (hA.2.2.2.2.1 (by decide)).1
  · exact (hA.2.2.2.2.1 (by decide)).2.1
  · exact (hA.2.2.2.2.1 (by decide)).2.2
  · exact (hAp.2.2.2.2.2).2

/-- C2: picking a winner on the round-0 slot-2 match routes the loser
(the other participant) with all of its metadata into the team-B fields
of the round-0 slot-3 match of the same conference, clearing its
prediction; for any match not at round 0 slot 2 the loser router changes
nothing. -/
theorem playin_loser_routing (st : LocalState) (mt : Match) (team : Side)
    (h1 : truthy mt.team_a = true) (h2 : truthy mt.team_b = true)
    (hr : mt.round = 0) (hs : mt.slot = 2)
    (game3 : Match) (hg3 : findGame3 st.graph mt.conference = some game3) :
    (∀ m' ∈ matchesOf (handleSetWinnerLocal st true mt team).graph,
        m'.id = game3.id →
        m'.team_b = teamOf mt (otherSide team) ∧
        m'.team_b_name = srcName mt (otherSide team) ∧
        m'.team_b_code = srcCode mt (otherSide team) ∧
        m'.team_b_logo_url = srcLogo mt (otherSide team) ∧
        m'.team_b_primary_color = srcPrimary mt (otherSide team) ∧
        m'.team_b_secondary_color = srcSecondary mt (otherSide team) ∧
        m'.predicted_winner = none ∧ m'.predicted_winner_games = none) ∧
    (∀ (cap g : MatchesByConfRound) (mt' : Match) (ls : Side) (l : String),
        mt'.round ≠ 0 ∨ mt'.slot ≠ 2 →
        updatePlayInGame3LoserInState cap g mt' ls l = g) := by
  have hpt : playTarget st.graph mt = some game3.id := by
    unfold playTarget
    simp [hr, hs, hg3]
  constructor
  · intro m' hm' hid
    obtain ⟨n, hn, hstep⟩ := handleSetWinnerLocal_nodes st mt team h1 h2 hm'
    have hnid : n.id = game3.id := by
      have := congrArg Match.id hstep
      simpa [hid] using this
    rw [show hswStep mt team ((teamOf mt team).getD "")
        ((teamOf mt (otherSide team)).getD "")
        (winnerGames st.pending mt ((teamOf mt team).getD ""))
        (playTarget st.graph mt) n =
        loserUpdater mt (otherSide team) ((teamOf mt (otherSide team)).getD "")
          (stage2Fn mt team ((teamOf mt team).getD "")
            (stage1Fn mt ((teamOf mt team).getD "")
              (winnerGames st.pending mt ((teamOf mt team).getD "")) n)) by
      unfold hswStep
      rw [stage3Fn_pos mt (otherSide team) _ hpt (by simpa using hnid)]]
      at hstep
    subst hstep
    have hloser : some ((teamOf mt (otherSide team)).getD "") =
        teamOf mt (otherSide team) := by
      cases team with
      | A => exact (truthy_eq_some_getD h2).symm
      | B => exact (truthy_eq_some_getD h1).symm
    exact ⟨hloser, rfl, rfl, rfl, rfl, rfl, rfl, rfl⟩
  · intro cap g mt' ls l hne
    unfold updatePlayInGame3LoserInState
    simp [hne]

/-- Witness for C2 at the play-in fixture: picking LAL on p2 routes GSW
with all metadata into the team-B slot of g3 and clears the SAC
prediction there; the router is a no-op on the round-1 match mA. -/
theorem playin_loser_routing_witness :
    (p3Routed.team_b = teamOf p2 (otherSide Side.A) ∧
      p3Routed.team_b_name = srcName p2 (otherSide Side.A) ∧
      p3Routed.team_b_code = srcCode p2 (otherSide Side.A) ∧
      p3Routed.team_b_logo_url = srcLogo p2 (otherSide Side.A) ∧
      p3Routed.team_b_primary_color = srcPrimary p2 (otherSide Side.A) ∧
      p3Routed.team_b_secondary_color = srcSecondary p2 (otherSide Side.A) ∧
      p3Routed.predicted_winner = none ∧
      p3Routed.predicted_winner_games = none) ∧
    updatePlayInGame3LoserInState gAB gAB mA Side.B "GSW" = gAB := by
  have hmain := playin_loser_routing stPlay p2 Side.A (by decide) (by decide)
    (by decide) (by decide) p3 (by decide)
  exact ⟨hmain.1 p3Routed (by decide) (by decide),
    hmain.2 gAB gAB mA Side.B "GSW" (Or.inl (by decide))⟩

@[simp] lemma nextSlotUpdater_pw (src : Match) (side : Side) (w : String)
    (destA : Bool) (m : Match) :
    (nextSlotUpdater src side w destA m).predicted_winner = none := by
  unfold nextSlotUpdater
  split <;> rfl

@[simp] lemma nextSlotUpdater_pwg (src : Match) (side : Side) (w : String)
    (destA : Bool) (m : Match) :
    (nextSlotUpdater src side w destA m).predicted_winner_games = none := by
  unfold nextSlotUpdater
  split <;> rfl

/-- Direct unfolding of the guarded body of the local setWinner mutation. -/
lemma handleSetWinnerLocal_unfold (st : LocalState) (mt : Match) (team : Side)
    (h1 : truthy mt.team_a = true) (h2 : truthy mt.team_b = true) :
    handleSetWinnerLocal st true mt team =
      ⟨updatePlayInGame3LoserInState st.graph
        (updateNextMatchSlotInState
          (updateMatchInState st.graph mt.id
            (setWinnerUpdater ((teamOf mt team).getD "")
              (winnerGames st.pending mt ((teamOf mt team).getD ""))))
          mt team ((teamOf mt team).getD ""))
        mt (otherSide team) ((teamOf mt (otherSide team)).getD ""),
       erasePending st.pending mt.id⟩ := by
  unfold handleSetWinnerLocal
  simp [h1, h2]

/-- The forward-propagation resolver is the identity when the forward
link is falsy or no match of the graph carries the target id. -/
lemma updateNextMatchSlot_noop (g : MatchesByConfRound) (mt : Match)
    (side : Side) (w : String)
    (hno : truthy mt.next_match_id = false ∨ truthy mt.next_slot = false ∨
      (∀ n ∈ matchesOf g, mt.next_match_id ≠ some n.id)) :
    updateNextMatchSlotInState g mt side w = g := by
  unfold updateNextMatchSlotInState
  split
  · rename_i nm ns hmn hms
    by_cases hne : nm = "" ∨ ns = ""
    · simp [hne]
    · rcases hno with hno | hno | hno
      · rw [hmn] at hno
        simp [truthy] at hno
        exact absurd (Or.inl hno) hne
      · rw [hms] at hno
        simp [truthy] at hno
        exact absurd (Or.inr hno) hne
      · rw [if_neg hne]
        apply updateMatchInState_absent
        intro n hn hid
        exact hno n hn (by rw [hmn, hid])
  · rfl

/-- Counterexample to the second half of C1 as stated: the picked match
p2 carries no forward link at all, yet setWinner changes another match
(the play-in loser router rewrites the slot-3 game g3, so the original g3
node is no longer in the graph). -/
theorem forward_propagation_counterexample :
    p2.next_match_id = none ∧ p2.next_slot = none ∧
    p3 ∈ matchesOf stPlay.graph ∧ ¬ p3.id = p2.id ∧
    ¬ p3 ∈ matchesOf (handleSetWinnerLocal stPlay true p2 Side.A).graph := by
  refine ⟨rfl, rfl, by decide, by decide, by decide⟩

/-- C1 (amended): on a match with both participants assigned, setWinner
writes the winner id and all of its display metadata into the linked slot
of the forward-link target and clears the prediction there (team-A fields
for next_slot a, team-B fields for next_slot b); and when the forward
link is missing or its target id is absent from the graph, the
forward-propagation step contributes nothing: apart from the update of
the picked match itself, only the play-in loser router (which fires
exactly for a round-0 slot-2 match) can change any other match. -/
theorem forward_propagation_amended (st : LocalState) (mt : Match) (team : Side)
    (h1 : truthy mt.team_a = true) (h2 : truthy mt.team_b = true) :
    (∀ nm ns, mt.next_match_id = some nm → mt.next_slot = some ns →
      nm ≠ "" → ns ≠ "" →
      playTarget st.graph mt ≠ some nm →
      ∀ m' ∈ matchesOf (handleSetWinnerLocal st true mt team).graph,
        m'.id = nm →
        m'.predicted_winner = none ∧ m'.predicted_winner_games = none ∧
        (ns = "a" →
          m'.team_a = teamOf mt team ∧
          m'.team_a_name = srcName mt team ∧
          m'.team_a_code = srcCode mt team ∧
          m'.team_a_logo_url = srcLogo mt team ∧
          m'.team_a_primary_color = srcPrimary mt team ∧
          m'.team_a_secondary_color = srcSecondary mt team) ∧
        (ns = "b" →
          m'.team_b = teamOf mt team ∧
          m'.team_b_name = srcName mt team ∧
          m'.team_b_code = srcCode mt team ∧
          m'.team_b_logo_url = srcLogo mt team ∧
          m'.team_b_primary_color = srcPrimary mt team ∧
          m'.team_b_secondary_color = srcSecondary mt team)) ∧
    ((truthy mt.next_match_id = false ∨ truthy mt.next_slot = false ∨
        (∀ n ∈ matchesOf st.graph, mt.next_match_id ≠ some n.id)) →
      (handleSetWinnerLocal st true mt team).graph =
        updatePlayInGame3LoserInState st.graph
          (updateMatchInState st.graph mt.id
            (setWinnerUpdater ((teamOf mt team).getD "")
              (winnerGames st.pending mt ((teamOf mt team).getD ""))))
          mt (otherSide team) ((teamOf mt (otherSide team)).getD "") ∧
      (¬(mt.round = 0 ∧ mt.slot = 2) →
        (handleSetWinnerLocal st true mt team).graph =
          updateMatchInState st.graph mt.id
            (setWinnerUpdater ((teamOf mt team).getD "")
              (winnerGames st.pending mt ((teamOf mt team).getD ""))))) := by
  constructor
  · intro nm ns hnm hns hne hnse hnotg3 m' hm' hid
    obtain ⟨n, hn, hstep⟩ := handleSetWinnerLocal_nodes st mt team h1 h2 hm'
    have hnid : n.id = nm := by
      have := congrArg Match.id hstep
      simpa [hid] using this
    have hne' : ¬(nm = "" ∨ ns = "") := by
      rintro (h | h)
      · exact hne h
      · exact hnse h
    rw [show hswStep mt team ((teamOf mt team).getD "")
        ((teamOf mt (otherSide team)).getD "")
        (winnerGames st.pending mt ((teamOf mt team).getD ""))
        (playTarget st.graph mt) n =
        nextSlotUpdater mt team ((teamOf mt team).getD "") (ns = "a")
          (stage1Fn mt ((teamOf mt team).getD "")
            (winnerGames st.pending mt ((teamOf mt team).getD "")) n) by
      unfold hswStep
      rw [stage2Fn_pos team _ hnm hns hne' (by simpa using hnid),
        stage3Fn_skip mt (otherSide team) _ ?_]
      rintro ⟨g3id, hgt, hid3⟩
      apply hnotg3
      rw [hgt]
      have : g3id = nm := by simpa [hnid] using hid3.symm
      rw [this]]
      at hstep
    subst hstep
    have hwinner : some ((teamOf mt team).getD "") = teamOf mt team := by
      cases team with
      | A => exact (truthy_eq_some_getD h1).symm
      | B => exact (truthy_eq_some_getD h2).symm
    refine ⟨by simp, by simp, ?_, ?_⟩
    · intro hna
      subst hna
      rw [show (decide (("a" : String) = "a")) = true from by decide,
        nextSlotUpdater_destA]
      exact ⟨hwinner, rfl, rfl, rfl, rfl, rfl⟩
    · intro hnb
      subst hnb
      rw [show (decide (("b" : String) = "a")) = false from by decide,
        nextSlotUpdater_destB]
      exact ⟨hwinner, rfl, rfl, rfl, rfl, rfl⟩
  · intro hno
    rw [handleSetWinnerLocal_unfold st mt team h1 h2]
    have hg2 : updateNextMatchSlotInState
        (updateMatchInState st.graph mt.id
          (setWinnerUpdater ((teamOf mt team).getD "")
            (winnerGames st.pending mt ((teamOf mt team).getD ""))))
        mt team ((teamOf mt team).getD "") =
        updateMatchInState st.graph mt.id
          (setWinnerUpdater ((teamOf mt team).getD "")
            (winnerGames st.pending mt ((teamOf mt team).getD ""))) := by
      apply updateNextMatchSlot_noop
      rcases hno with hno | hno | hno
      · exact Or.inl hno
      · exact Or.inr (Or.inl hno)
      · refine Or.inr (Or.inr ?_)
        intro n hn
        unfold updateMatchInState at hn
        rw [matchesOf_mapMatches] at hn
        obtain ⟨n0, hn0, rfl⟩ := List.mem_map.mp hn
        have hid : (if n0.id = mt.id then
            setWinnerUpdater ((teamOf mt team).getD "")
              (winnerGames st.pending mt ((teamOf mt team).getD "")) n0
          else n0).id = n0.id := by
          split <;> simp
        rw [hid]
        exact hno n0 hn0
    rw [hg2]
    refine ⟨rfl, ?_⟩
    intro hnot
    unfold updatePlayInGame3LoserInState
    have : mt.round ≠ 0 ∨ mt.slot ≠ 2 := by tauto
    simp [this]

/-- Witness for the amended C1: picking BOS on mA writes BOS and all of
its metadata into the team-A slot of mB and clears the NYK prediction
there; on p2, which has no forward link, the result is exactly the local
update of p2 followed by the play-in loser routing. -/
theorem forward_propagation_amended_witness :
    (mBFed.team_a = teamOf mA Side.A ∧
      mBFed.team_a_name = srcName mA Side.A ∧
      mBFed.team_a_code = srcCode mA Side.A ∧
      mBFed.team_a_logo_url = srcLogo mA Side.A ∧
      mBFed.team_a_primary_color = srcPrimary mA Side.A ∧
      mBFed.team_a_secondary_color = srcSecondary mA Side.A) ∧
    mBFed.predicted_winner = none ∧ mBFed.predicted_winner_games = none ∧
    (handleSetWinnerLocal stPlay true p2 Side.A).graph =
      updatePlayInGame3LoserInState stPlay.graph
        (updateMatchInState stPlay.graph p2.id
          (setWinnerUpdater ((teamOf p2 Side.A).getD "")
            (winnerGames stPlay.pending p2 ((teamOf p2 Side.A).getD ""))))
        p2 (otherSide Side.A) ((teamOf p2 (otherSide Side.A)).getD "") := by
  have hpos := (forward_propagation_amended stAB mA Side.A (by decide)
    (by decide)).1 "B" "a" rfl rfl (by decide) (by decide) (by decide)
    mBFed (by decide) (by decide)
  have hneg := (forward_propagation_amended stPlay p2 Side.A (by decide)
    (by decide)).2 (Or.inl (by decide))
  exact ⟨hpos.2.2.1 rfl, hpos.1, hpos.2.1, hneg.1⟩

lemma handleSetWinnerLocal_eqF (st : LocalState) (mt : Match) (team : Side)
    (h1 : truthy mt.team_a = true) (h2 : truthy mt.team_b = true) :
    handleSetWinnerLocal st true mt team =
      ⟨mapMatches st.graph (hswF st mt team), erasePending st.pending mt.id⟩ :=
  handleSetWinnerLocal_eq st mt team h1 h2

@[simp] lemma hswF_id (st : LocalState) (mt : Match) (team : Side) (m : Match) :
    (hswF st mt team m).id = m.id := by
  simp [hswF]

@[simp] lemma hswF_round (st : LocalState) (mt : Match) (team : Side) (m : Match) :
    (hswF st mt team m).round = m.round := by
  simp [hswF]

@[simp] lemma hswF_slot (st : LocalState) (mt : Match) (team : Side) (m : Match) :
    (hswF st mt team m).slot = m.slot := by
  simp [hswF]

/-- C7: applying the same winner pick twice in a row to the same match,
with no operations in between, leaves the state produced by the first
pick unchanged (the second argument is the node the first pick turned the
match into, which the second conjunct shows is indeed in the graph). The
match may not be its own forward-link or play-in routing target. -/
theorem setWinner_idempotent (st : LocalState) (mt : Match) (team : Side)
    (h1 : truthy mt.team_a = true) (h2 : truthy mt.team_b = true)
    (hmem : mt ∈ matchesOf st.graph)
    (hself2 : ¬ hitsNext mt mt)
    (hself3 : ¬ hitsGame3 (playTarget st.graph mt) mt) :
    handleSetWinnerLocal (handleSetWinnerLocal st true mt team) true
      { mt with
        predicted_winner := some ((teamOf mt team).getD ""),
        predicted_winner_games :=
          some (winnerGames st.pending mt ((teamOf mt team).getD "")) } team =
      handleSetWinnerLocal st true mt team ∧
    { mt with
      predicted_winner := some ((teamOf mt team).getD ""),
      predicted_winner_games :=
        some (winnerGames st.pending mt ((teamOf mt team).getD "")) } ∈
      matchesOf (handleSetWinnerLocal st true mt team).graph := by
  have hFmt : hswF st mt team mt =
      { mt with
        predicted_winner := some ((teamOf mt team).getD ""),
        predicted_winner_games :=
          some (winnerGames st.pending mt ((teamOf mt team).getD "")) } := by
    unfold hswF hswStep
    rw [stage1Fn_pos _ _ rfl,
      stage2Fn_skip team _ (not_hitsNext_of (by simp) hself2),
      stage3Fn_skip mt (otherSide team) _ (not_hitsGame3_of (by simp) hself3)]
    rfl
  have e1 := handleSetWinnerLocal_eqF st mt team h1 h2
  constructor
  · rw [e1]
    have e2 : handleSetWinnerLocal
        (⟨mapMatches st.graph (hswF st mt team),
          erasePending st.pending mt.id⟩ : LocalState) true
        { mt with
          predicted_winner := some ((teamOf mt team).getD ""),
          predicted_winner_games :=
            some (winnerGames st.pending mt ((teamOf mt team).getD "")) } team =
        ⟨mapMatches (mapMatches st.graph (hswF st mt team))
          (hswF
            (⟨mapMatches st.graph (hswF st mt team),
              erasePending st.pending mt.id⟩ : LocalState)
            { mt with
              predicted_winner := some ((teamOf mt team).getD ""),
              predicted_winner_games :=
                some (winnerGames st.pending mt ((teamOf mt team).getD "")) }
            team),
          erasePending (erasePending st.pending mt.id) mt.id⟩ :=
      handleSetWinnerLocal_eqF _ _ team h1 h2
    rw [e2]
    have hkey : hswF
        (⟨mapMatches st.graph (hswF st mt team),
          erasePending st.pending mt.id⟩ : LocalState)
        { mt with
          predicted_winner := some ((teamOf mt team).getD ""),
          predicted_winner_games :=
            some (winnerGames st.pending mt ((teamOf mt team).getD "")) }
        team = hswF st mt team := by
      have hg : winnerGames (erasePending st.pending mt.id)
          { mt with
            predicted_winner := some ((teamOf mt team).getD ""),
            predicted_winner_games :=
              some (winnerGames st.pending mt ((teamOf mt team).getD "")) }
          ((teamOf mt team).getD "") =
          winnerGames st.pending mt ((teamOf mt team).getD "") :=
        winnerGames_after st.pending (erasePending st.pending mt.id) mt
          ((teamOf mt team).getD "")
      have hp : playTarget (mapMatches st.graph (hswF st mt team)) mt =
          playTarget st.graph mt :=
        playTarget_mapMatches st.graph (hswF st mt team) mt
          (fun m => by simp) (fun m => by simp) (fun m => by simp)
      show hswStep mt team ((teamOf mt team).getD "")
          ((teamOf mt (otherSide team)).getD "")
          (winnerGames (erasePending st.pending mt.id)
            { mt with
              predicted_winner := some ((teamOf mt team).getD ""),
              predicted_winner_games :=
                some (winnerGames st.pending mt ((teamOf mt team).getD "")) }
            ((teamOf mt team).getD ""))
          (playTarget (mapMatches st.graph (hswF st mt team)) mt) =
        hswF st mt team
      rw [hg, hp]
      rfl
    rw [hkey, mapMatches_comp,
      mapMatches_congr st.graph _ (hswF st mt team)
        (fun m => by
          show hswStep mt team ((teamOf mt team).getD "")
            ((teamOf mt (otherSide team)).getD "")
            (winnerGames st.pending mt ((teamOf mt team).getD ""))
            (playTarget st.graph mt)
            (hswStep mt team ((teamOf mt team).getD "")
              ((teamOf mt (otherSide team)).getD "")
              (winnerGames st.pending mt ((teamOf mt team).getD ""))
              (playTarget st.graph mt) m) = hswF st mt team m
          rw [hswStep_idem]
          rfl),
      erasePending_idem]
  · rw [e1]
    exact mem_matchesOf_mapMatches.mpr ⟨mt, hmem, hFmt⟩

/-- Witness for C7: on the fixture graph, repeating the BOS pick on mA
changes nothing, and the once-picked node is in the graph after the
first pick. -/
theorem setWinner_idempotent_witness :
    handleSetWinnerLocal (handleSetWinnerLocal stAB true mA Side.A) true
      mAPicked Side.A = handleSetWinnerLocal stAB true mA Side.A ∧
    mAPicked ∈ matchesOf (handleSetWinnerLocal stAB true mA Side.A).graph := by
  have hmain := setWinner_idempotent stAB mA Side.A (by decide) (by decide)
    (by decide)
    (by
      rintro ⟨nm, ns, hnm, hns, hne, hid⟩
      simp [mA, baseMatch] at hnm hid
      exact absurd (hid.trans hnm.symm) (by decide))
    (by
      rintro ⟨g3id, hg3, hid⟩
      rw [show playTarget stAB.graph mA = none by
        simp [playTarget, mA, baseMatch]] at hg3
      exact Option.noConfusion hg3)
  exact hmain

lemma exists_of_mem_matchesOf {g : MatchesByConfRound} {m : Match}
    (h : m ∈ matchesOf g) : ∃ cr ∈ g, ∃ rm ∈ cr.2, m ∈ rm.2 := by
  unfold matchesOf at h
  rw [List.mem_flatten] at h
  obtain ⟨l, hl, hm⟩ := h
  rw [List.mem_map] at hl
  obtain ⟨cr, hcr, rfl⟩ := hl
  rw [List.mem_flatten] at hm
  obtain ⟨l2, hl2, hm2⟩ := hm
  rw [List.mem_map] at hl2
  obtain ⟨rm, hrm, rfl⟩ := hl2
  exact ⟨cr, hcr, rm, hrm, hm2⟩

/-- C8: undo is a no-op without admin rights on the master bracket; when
permitted, its local mutation clears exactly the two prediction fields
of the edited match, leaves every match with a different id untouched at
its position (forward propagation into downstream matches is not
reversed), and removes only the pending entry of the edited match. -/
theorem undo_restricted_and_frame (st : LocalState) (mt : Match)
    (isAdmin isMaster : Bool) :
    (¬(isAdmin = true ∧ isMaster = true) →
      handleUndoLocal st isAdmin isMaster mt = st) ∧
    (isAdmin = true → isMaster = true →
      (matchesOf (handleUndoLocal st isAdmin isMaster mt).graph).length =
        (matchesOf st.graph).length ∧
      (∀ (i : Nat) (n : Match), (matchesOf st.graph)[i]? = some n →
        ¬ n.id = mt.id →
        (matchesOf (handleUndoLocal st isAdmin isMaster mt).graph)[i]? =
          some n) ∧
      (∀ (i : Nat) (n : Match), (matchesOf st.graph)[i]? = some n →
        n.id = mt.id →
        (matchesOf (handleUndoLocal st isAdmin isMaster mt).graph)[i]? =
          some { n with
            predicted_winner := none
            predicted_winner_games := none }) ∧
      lookupPending (handleUndoLocal st isAdmin isMaster mt).pending mt.id =
        none ∧
      (∀ k, ¬ k = mt.id →
        lookupPending (handleUndoLocal st isAdmin isMaster mt).pending k =
          lookupPending st.pending k)) := by
  constructor
  · intro hno
    have hfalse : (isAdmin && isMaster) = false := by
      cases isAdmin <;> cases isMaster <;> simp_all
    unfold handleUndoLocal
    rw [hfalse]
    rfl
  · intro hia him
    subst hia
    subst him
    have hred : handleUndoLocal st true true mt =
        ⟨updateMatchInState st.graph mt.id undoUpdater,
          erasePending st.pending mt.id⟩ := rfl
    rw [hred]
    refine ⟨?_, ?_, ?_, ?_, ?_⟩
    · unfold updateMatchInState
      rw [matchesOf_mapMatches, List.length_map]
    · intro i n hin hneq
      unfold updateMatchInState
      rw [matchesOf_mapMatches, List.getElem?_map _ _ i, hin]
      simp [hneq]
    · intro i n hin heq
      unfold updateMatchInState
      rw [matchesOf_mapMatches, List.getElem?_map _ _ i, hin, Option.map_some']
      show some (if n.id = mt.id then undoUpdater n else n) = _
      rw [if_pos heq]
      rfl
    · exact lookupPending_erase_self st.pending mt.id
    · intro k hk
      exact lookupPending_erase_other st.pending mt.id k hk

/-- Witness for C8: an undo of mB by a non-admin changes nothing; an
admin undo on the master clears exactly the prediction of mB (position 1)
and leaves mA (position 0) untouched. -/
theorem undo_restricted_and_frame_witness :
    handleUndoLocal stAB false true mB = stAB ∧
    (matchesOf (handleUndoLocal stAB true true mB).graph)[0]? = some mA ∧
    (matchesOf (handleUndoLocal stAB true true mB).graph)[1]? =
      some mBCleared := by
  have hno := (undo_restricted_and_frame stAB mB false true).1
    (by rintro ⟨h, -⟩; exact Bool.noConfusion h)
  have hyes := (undo_restricted_and_frame stAB mB true true).2 rfl rfl
  exact ⟨hno, hyes.2.1 0 mA (by decide) (by decide),
    hyes.2.2.1 1 mB (by decide) (by decide)⟩

/-- C9: whenever some match with both participants assigned lacks a
truthy predicted winner, or sits above round 0 with no games count, the
save gate canSave is false and handleSaveBracket refuses to submit; and
matches missing a participant do not block saving: a nonempty graph whose
fully-populated matches are all decided has allDecided true. -/
theorem save_gate_blocks_undecided (g : MatchesByConfRound) (ce : Bool)
    (name : String) (saving locked : Bool) :
    (∀ m ∈ matchesOf g, truthy m.team_a = true → truthy m.team_b = true →
      (truthy m.predicted_winner = false ∨
        (0 < m.round ∧ m.predicted_winner_games = none)) →
      canSave ce g name saving locked = false ∧
        handleSaveBracketSubmits ce g name saving locked = false) ∧
    (g ≠ [] →
      (∀ m ∈ matchesOf g, truthy m.team_a = true → truthy m.team_b = true →
        truthy m.predicted_winner = true ∧
          (0 < m.round → ¬ m.predicted_winner_games = none)) →
      allDecided g = true) := by
  constructor
  · intro m hmem hta htb hbad
    have hmd : matchDecided m = false := by
      rcases hbad with hb | ⟨hb1, hb2⟩
      · simp [matchDecided, hta, htb, hb]
      · by_cases hpw : truthy m.predicted_winner = true
        · simp [matchDecided, hta, htb, hpw, hb1, hb2]
        · have hpw' : truthy m.predicted_winner = false := by
            revert hpw
            cases truthy m.predicted_winner <;> simp
          simp [matchDecided, hta, htb, hpw']
    have hAD : allDecided g = false := by
      rw [Bool.eq_false_iff]
      intro hall
      unfold allDecided at hall
      by_cases hemp : g.isEmpty
      · simp [hemp] at hall
      · rw [if_neg hemp, List.all_eq_true] at hall
        obtain ⟨cr, hcr, rm, hrm, hm⟩ := exists_of_mem_matchesOf hmem
        have h1 := hall cr hcr
        rw [List.all_eq_true] at h1
        have h2 := h1 rm hrm
        rw [List.all_eq_true] at h2
        have h3 := h2 m hm
        rw [hmd] at h3
        exact Bool.noConfusion h3
    constructor
    · simp [canSave, hAD]
    · simp [handleSaveBracketSubmits, canSave, hAD]
  · intro hne hgood
    have hemp : g.isEmpty = false := by
      cases g with
      | nil => exact absurd rfl hne
      | cons cr tl => rfl
    unfold allDecided
    rw [hemp]
    simp only [Bool.false_eq_true, if_false]
    rw [List.all_eq_true]
    intro cr hcr
    rw [List.all_eq_true]
    intro rm hrm
    rw [List.all_eq_true]
    intro m hm
    have hmem : m ∈ matchesOf g := mem_matchesOf_of hcr hrm hm
    by_cases hta : truthy m.team_a = true
    · by_cases htb : truthy m.team_b = true
      · obtain ⟨hpw, hgames⟩ := hgood m hmem hta htb
        by_cases hr : 0 < m.round
        · have hng := hgames hr
          have : m.predicted_winner_games.isNone = false := by
            cases hpwg : m.predicted_winner_games with
            | none => exact absurd hpwg hng
            | some k => rfl
          simp [matchDecided, hta, htb, hpw, this]
        · have : ¬ m.round > 0 := hr
          simp [matchDecided, hta, htb, hpw, this]
      · have htb' : truthy m.team_b = false := by
          revert htb
          cases truthy m.team_b <;> simp
        simp [matchDecided, htb']
    · have hta' : truthy m.team_a = false := by
        revert hta
        cases truthy m.team_a <;> simp
      simp [matchDecided, hta']

/-- Witness for C9: the fixture gAB (mA has both teams but no winner)
cannot be saved even with every other flag favourable, while the decided
variant gDone passes the allDecided gate. -/
theorem save_gate_blocks_undecided_witness :
    canSave true gAB "My Bracket" false false = false ∧
    handleSaveBracketSubmits true gAB "My Bracket" false false = false ∧
    allDecided gDone = true := by
  have hblock := (save_gate_blocks_undecided gAB true "My Bracket" false
    false).1 mA (by decide) (by decide) (by decide) (Or.inl (by decide))
  have hpass := (save_gate_blocks_undecided gDone true "My Bracket" false
    false).2 (by decide) (by decide)
  exact ⟨hblock.1, hblock.2, hpass⟩

/-- C10: setGames on a match above round 0 whose winner is already
recorded updates only the games field of that match: the request sent
uses the set_winner action with the recorded winner, the pending cache is
untouched, every other match stays at its position unchanged, and the
predicted winner of the edited match is preserved. -/
theorem setGames_with_winner_frame (st : LocalState) (mt : Match) (gv : Int)
    (hr : 0 < mt.round) (hw : truthy mt.predicted_winner = true) :
    (handleSelectGamesLocal st true mt gv).1.graph =
      updateMatchInState st.graph mt.id
        (fun m => { m with predicted_winner_games := some gv }) ∧
    (handleSelectGamesLocal st true mt gv).1.pending = st.pending ∧
    (handleSelectGamesLocal st true mt gv).2 =
      some ⟨"set_winner", mt.predicted_winner, some gv⟩ ∧
    (∀ (i : Nat) (n : Match), (matchesOf st.graph)[i]? = some n →
      ¬ n.id = mt.id →
      (matchesOf (handleSelectGamesLocal st true mt gv).1.graph)[i]? =
        some n) ∧
    (∀ (i : Nat) (n : Match), (matchesOf st.graph)[i]? = some n →
      n.id = mt.id →
      (matchesOf (handleSelectGamesLocal st true mt gv).1.graph)[i]? =
        some { n with predicted_winner_games := some gv } ∧
      ({ n with predicted_winner_games := some gv } : Match).predicted_winner =
        n.predicted_winner) := by
  have hrne : ¬ mt.round = 0 := by
    intro h
    rw [h] at hr
    exact lt_irrefl 0 hr
  have hred : handleSelectGamesLocal st true mt gv =
      (⟨updateMatchInState st.graph mt.id
          (fun m => { m with
            predicted_winner := m.predicted_winner
            predicted_winner_games := some gv }), st.pending⟩,
        some ⟨"set_winner", mt.predicted_winner, some gv⟩) := by
    unfold handleSelectGamesLocal
    simp [hrne, hw]
  rw [hred]
  refine ⟨rfl, rfl, rfl, ?_, ?_⟩
  · intro i n hin hneq
    unfold updateMatchInState
    rw [matchesOf_mapMatches, List.getElem?_map _ _ i, hin, Option.map_some']
    show some (if n.id = mt.id then
      { n with
        predicted_winner := n.predicted_winner
        predicted_winner_games := some gv } else n) = some n
    rw [if_neg hneq]
  · intro i n hin heq
    refine ⟨?_, rfl⟩
    unfold updateMatchInState
    rw [matchesOf_mapMatches, List.getElem?_map _ _ i, hin, Option.map_some']
    show some (if n.id = mt.id then
      { n with
        predicted_winner := n.predicted_winner
        predicted_winner_games := some gv } else n) =
      some { n with predicted_winner_games := some gv }
    rw [if_pos heq]

/-- Witness for C10: selecting 7 games on mB (winner NYK already
recorded) rewrites only the games field of the node at position 1,
leaves mA at position 0 untouched, keeps the pending cache, and sends a
set_winner request for NYK. -/
theorem setGames_with_winner_frame_witness :
    (handleSelectGamesLocal stAB true mB 7).1.pending = stAB.pending ∧
    (handleSelectGamesLocal stAB true mB 7).2 =
      some ⟨"set_winner", mB.predicted_winner, some 7⟩ ∧
    (matchesOf (handleSelectGamesLocal stAB true mB 7).1.graph)[0]? =
      some mA ∧
    (matchesOf (handleSelectGamesLocal stAB true mB 7).1.graph)[1]? =
      some mBGames7 := by
  have hmain := setGames_with_winner_frame stAB mB 7 (by decide) (by decide)
  exact ⟨hmain.2.1, hmain.2.2.1,
    hmain.2.2.2.1 0 mA (by decide) (by decide),
    (hmain.2.2.2.2 1 mB (by decide) (by decide)).1⟩

/-- C4: when the backend PATCH of a mutation fails, each of the three
handlers surfaces an error message and replaces the graph by the freshly
loaded server graph (loadBracket with the silent option), leaving no
optimistic graph state behind. -/
theorem reconciliation_on_failure (st : LocalState) (mt : Match) (team : Side)
    (gv : Int) (msg : String) (fresh : MatchesByConfRound)
    (isAdmin isMaster : Bool)
    (h1 : truthy mt.team_a = true) (h2 : truthy mt.team_b = true)
    (hr : 0 < mt.round) (hw : truthy mt.predicted_winner = true)
    (hia : isAdmin = true) (him : isMaster = true) :
    ((handleSetWinner st true mt team (PatchOutcome.err msg)
        (some fresh)).state.graph = fresh ∧
      (handleSetWinner st true mt team (PatchOutcome.err msg)
        (some fresh)).state.graph =
        loadBracketSilent (handleSetWinnerLocal st true mt team).graph
          (some fresh) ∧
      ¬ (handleSetWinner st true mt team (PatchOutcome.err msg)
        (some fresh)).surfaced = none) ∧
    ((handleSelectGames st true mt gv (PatchOutcome.err msg)
        (some fresh)).state.graph = fresh ∧
      ¬ (handleSelectGames st true mt gv (PatchOutcome.err msg)
        (some fresh)).surfaced = none) ∧
    ((handleUndo st isAdmin isMaster mt (PatchOutcome.err msg)
        (some fresh)).state.graph = fresh ∧
      ¬ (handleUndo st isAdmin isMaster mt (PatchOutcome.err msg)
        (some fresh)).surfaced = none) := by
  have hrne : ¬ mt.round = 0 := by
    intro h
    rw [h] at hr
    exact lt_irrefl 0 hr
  have hsw : handleSetWinner st true mt team (PatchOutcome.err msg)
      (some fresh) =
      ⟨⟨fresh, (handleSetWinnerLocal st true mt team).pending⟩,
        some (surfaceError msg "Failed to update match"),
        some ⟨"set_winner", some ((teamOf mt team).getD ""),
          some (winnerGames st.pending mt ((teamOf mt team).getD ""))⟩⟩ := by
    unfold handleSetWinner
    simp [h1, h2, loadBracketSilent]
  have hsg : handleSelectGames st true mt gv (PatchOutcome.err msg)
      (some fresh) =
      ⟨⟨fresh, st.pending⟩,
        some (surfaceError msg "Failed to update games"),
        some ⟨"set_winner", mt.predicted_winner, some gv⟩⟩ := by
    have hred : handleSelectGamesLocal st true mt gv =
        (⟨updateMatchInState st.graph mt.id
            (fun m => { m with
              predicted_winner := m.predicted_winner
              predicted_winner_games := some gv }), st.pending⟩,
          some ⟨"set_winner", mt.predicted_winner, some gv⟩) := by
      unfold handleSelectGamesLocal
      simp [hrne, hw]
    unfold handleSelectGames
    rw [hred]
    rfl
  have hun : handleUndo st isAdmin isMaster mt (PatchOutcome.err msg)
      (some fresh) =
      ⟨⟨fresh, erasePending st.pending mt.id⟩,
        some (surfaceError msg "Failed to undo prediction"),
        some ⟨"undo", none, none⟩⟩ := by
    subst hia
    subst him
    rfl
  rw [hsw, hsg, hun]
  refine ⟨⟨rfl, rfl, ?_⟩, ⟨rfl, ?_⟩, ⟨rfl, ?_⟩⟩ <;>
    exact fun h => Option.noConfusion h

/-- Witness for C4: on the fixture, failing the PATCH of each mutation of
mB with message boom replaces the graph by the server graph gPlay and
surfaces an error. -/
theorem reconciliation_on_failure_witness :
    (handleSetWinner stAB true mB Side.A (PatchOutcome.err "boom")
      (some gPlay)).state.graph = gPlay ∧
    (handleSelectGames stAB true mB 7 (PatchOutcome.err "boom")
      (some gPlay)).state.graph = gPlay ∧
    (handleUndo stAB true true mB (PatchOutcome.err "boom")
      (some gPlay)).state.graph = gPlay ∧
    ¬ (handleSetWinner stAB true mB Side.A (PatchOutcome.err "boom")
      (some gPlay)).surfaced = none := by
  have hmain := reconciliation_on_failure stAB mB Side.A 7 "boom" gPlay
    true true (by decide) (by decide) (by decide) (by decide) rfl rfl
  exact ⟨hmain.1.1, hmain.2.1.1, hmain.2.2.1, hmain.1.2.2⟩

end NBACorner
